import Mathlib

/-!
# Colour values of the style engine

A shallow embedding of the two generations of style colour values found in the sources:

* the legacy `WebCore::StyleColor` of `Source/WebCore/css/StyleColor.{h,cpp}`, an absolute
  colour or a pointer to an `ExtendedStyleColor` (the `currentcolor` marker or a colour-mix);
* the newer `WebCore::Style::Color` of `Source/WebCore/style/values/color/StyleColor.{h,cpp}`,
  a packed `WebCore::Color` word that is a resolved colour, the `currentcolor` marker or a
  reference to a shared `Style::ExtendedStyleColor` node.

Types that the sources only use (the payload of an absolute colour, the interpolation method,
the percentage number) are type parameters `A`, `M`, `P`; functions that the sources only call
(`mix`, `WebCore::Color::operator==`, the equality of the node kinds, the node's own
`resolveColor` and `containsCurrentColor`) are function parameters.
-/

set_option linter.constructorNameAsVariable false

namespace WebCore

/-! ## Legacy representation: `css/StyleColor.h` -/

/-- The `StyleColorMix::Component` struct: a colour and an optional percentage. -/
structure StyleColorMix.Component (C P : Type) where
  color : C
  percentage : Option P

/-- The `StyleColorMix` struct: interpolation method and the two mix components. -/
structure StyleColorMix (C M P : Type) where
  colorInterpolationMethod : M
  mixComponents1 : StyleColorMix.Component C P
  mixComponents2 : StyleColorMix.Component C P

/-- The legacy `ExtendedStyleColor` class, whose `m_color` is the variant
`std::variant<UniqueRef<StyleColorMix>, StyleCurrentColor>`. -/
inductive ExtendedStyleColor (C M P : Type) where
  | colorMix (colorMix : StyleColorMix C M P)
  | currentColor

/-- The legacy `StyleColor`: its `m_color` either lacks the `ExtendedStyleColor` flag and is an
absolute colour, or carries the flag and points to an `ExtendedStyleColor`. -/
inductive StyleColor (A M P : Type) where
  | absolute (m_color : A)
  | extended (node : ExtendedStyleColor (StyleColor A M P) M P)

/-- The `CSSResolvedColorMix::Component` aggregate handed to `mix`. -/
structure CSSResolvedColorMix.Component (A P : Type) where
  color : A
  percentage : Option P

/-- The `CSSResolvedColorMix` aggregate handed to `mix`. -/
structure CSSResolvedColorMix (A M P : Type) where
  colorInterpolationMethod : M
  mixComponents1 : CSSResolvedColorMix.Component A P
  mixComponents2 : CSSResolvedColorMix.Component A P

namespace StyleColor

variable {A M P : Type}

/-- `StyleColor::StyleColor()`: allocates an `ExtendedStyleColor { StyleCurrentColor { } }`
and stores the pointer to it. -/
def default : StyleColor A M P := .extended .currentColor

/-- `StyleColor::currentColor()`: `return { };`. -/
def currentColor : StyleColor A M P := default

/-- `StyleColor::StyleColor(const Color&)`. -/
def ofColor (color : A) : StyleColor A M P := .absolute color

/-- `StyleColor::isExtendedStyleColor`. -/
def isExtendedStyleColor : StyleColor A M P → Bool
  | .absolute _ => false
  | .extended _ => true

/-- `StyleColor::isAbsoluteColor`. -/
def isAbsoluteColor (c : StyleColor A M P) : Bool := !c.isExtendedStyleColor

/-- `StyleColor::isCurrentColor`. -/
def isCurrentColor : StyleColor A M P → Bool
  | .absolute _ => false
  | .extended .currentColor => true
  | .extended (.colorMix _) => false

/-- `StyleColor::isColorMix`. -/
def isColorMix : StyleColor A M P → Bool
  | .absolute _ => false
  | .extended .currentColor => false
  | .extended (.colorMix _) => true

/-- `StyleColor::resolveColor`, together with the static
`resolveColor(const StyleColorMix&, const Color&)` it calls for a colour-mix. -/
def resolveColor (mix : CSSResolvedColorMix A M P → A) : StyleColor A M P → A → A
  | .absolute m_color, _ => m_color
  | .extended .currentColor, currentColor => currentColor
  | .extended (.colorMix ⟨method, ⟨color1, percentage1⟩, ⟨color2, percentage2⟩⟩), currentColor =>
      mix ⟨method,
        ⟨resolveColor mix color1 currentColor, percentage1⟩,
        ⟨resolveColor mix color2 currentColor, percentage2⟩⟩

/-- `StyleColor::containsCurrentColor`. -/
def containsCurrentColor : StyleColor A M P → Bool
  | .absolute _ => false
  | .extended .currentColor => true
  | .extended (.colorMix ⟨_, ⟨color1, _⟩, ⟨color2, _⟩⟩) =>
      containsCurrentColor color1 || containsCurrentColor color2

/-- The leaves of a legacy colour tree: an absolute colour or the `currentcolor` marker. -/
inductive Leaf (A : Type) where
  | absolute (color : A)
  | currentColor
  deriving DecidableEq

/-- The leaves of a colour tree in left-to-right order, as the claim about
`containsCurrentColor` words it: an absolute value and `currentcolor` are leaves, a colour-mix
has the leaves of its two components. -/
def leaves : StyleColor A M P → List (Leaf A)
  | .absolute m_color => [.absolute m_color]
  | .extended .currentColor => [.currentColor]
  | .extended (.colorMix ⟨_, ⟨color1, _⟩, ⟨color2, _⟩⟩) => leaves color1 ++ leaves color2

end StyleColor

/-! ## The packed `WebCore::Color` word -/

/-- Modelled from the spec: the `WebCore::Color` class (`Color.h` is not among the sources),
restricted to what `Style::Color` observes of its packed word `m_colorAndFlags`. The spec
gives a colour value three logical variants plus the inert invalid state of a moved-from
value; the sources reach them through `Color { }` / `invalidColorAndFlags`,
`setCurrentColor` / `isCurrentColor`, and `setExtendedStyleColor` / `isExtendedStyleColor` /
`decodedOutOfLinePointer`. -/
inductive Color (A : Type) where
  | invalid
  | plain (color : A)
  | currentColor
  | extendedStyleColor (pointer : Nat)
  deriving DecidableEq

namespace Color

variable {A : Type}

/-- Modelled from the spec: `WebCore::Color::isCurrentColor`. -/
def isCurrentColor : Color A → Bool
  | .currentColor => true
  | _ => false

/-- Modelled from the spec: `WebCore::Color::isExtendedStyleColor`. -/
def isExtendedStyleColor : Color A → Bool
  | .extendedStyleColor _ => true
  | _ => false

/-- Modelled from the spec: `WebCore::Color::setCurrentColor`. -/
def setCurrentColor (_ : Color A) : Color A := .currentColor

/-- Modelled from the spec: `WebCore::Color::setExtendedStyleColor`. -/
def setExtendedStyleColor (_ : Color A) (pointer : Nat) : Color A := .extendedStyleColor pointer

/-- Modelled from the spec: `WebCore::Color::decodedOutOfLinePointer`; only meaningful on a
word that carries the `ExtendedStyleColor` flag. -/
def decodedOutOfLinePointer : Color A → Nat
  | .extendedStyleColor pointer => pointer
  | _ => 0

end Color

/-! ## Newer representation: `style/values/color/StyleColor.h` -/

namespace Style

/-- The reference-counted `Style::ExtendedStyleColor` node: the count inherited from
`RefCounted` and the stored `ExtendedColorKind` variant `m_color`, whose alternatives are
declared outside the sources and stay a type parameter `K`. -/
structure ExtendedStyleColor (K : Type) where
  refCount : Nat
  m_color : K

/-- `ExtendedStyleColor::operator==`: `m_color == other.m_color`. -/
def ExtendedStyleColor.eq {K : Type} (kindEq : K → K → Bool) (a b : ExtendedStyleColor K) :
    Bool :=
  kindEq a.m_color b.m_color

/-- `RefCounted::ref` on a node. -/
def ExtendedStyleColor.ref {K : Type} (node : ExtendedStyleColor K) : ExtendedStyleColor K :=
  ⟨node.refCount + 1, node.m_color⟩

/-- The nodes of the heap by address. -/
abbrev Heap (K : Type) := Nat → ExtendedStyleColor K

/-- The `ColorKind` variant `std::variant<ResolvedColor, CurrentColor, Ref<ExtendedStyleColor>>`;
a `ResolvedColor` carries its `color`, a `Ref` the address of its node. -/
inductive ColorKind (A : Type) where
  | resolvedColor (color : WebCore.Color A)
  | currentColor
  | extendedStyleColor (node : Nat)

/-- The `Style::Color` struct: the single member `m_color`. -/
structure Color (A : Type) where
  m_color : WebCore.Color A
  deriving DecidableEq

namespace Color

variable {A K : Type}

/-- `Color::isCurrentColor`. -/
def isCurrentColor (self : Color A) : Bool := self.m_color.isCurrentColor

/-- `Color::isExtendedStyleColor`. -/
def isExtendedStyleColor (self : Color A) : Bool := self.m_color.isExtendedStyleColor

/-- `Color::isResolvedColor`. -/
def isResolvedColor (self : Color A) : Bool :=
  !self.isCurrentColor && !self.isExtendedStyleColor

/-- `Color::resolvedColor`. -/
def resolvedColor (self : Color A) : WebCore.Color A := self.m_color

/-- `Color::extendedStyleColor`: the node at the decoded pointer. -/
def extendedStyleColor (heap : Heap K) (self : Color A) : ExtendedStyleColor K :=
  heap self.m_color.decodedOutOfLinePointer

/-- `Color::store`, acting on the member `m_color` of `self`. -/
def store (self : Color A) : ColorKind A → Color A
  | .resolvedColor color => ⟨color⟩
  | .currentColor => ⟨self.m_color.setCurrentColor⟩
  | .extendedStyleColor node => ⟨self.m_color.setExtendedStyleColor node⟩

/-- `Color::Color()`. -/
def default : Color A := ⟨(WebCore.Color.invalid).setCurrentColor⟩

/-- `Color::Color(WebCore::Color)`. -/
def ofColor (color : WebCore.Color A) : Color A := ⟨color⟩

/-- `Color::Color(ResolvedColor&&)`, the argument given by its `color` member. -/
def ofResolvedColor (color : WebCore.Color A) : Color A :=
  store ⟨.invalid⟩ (.resolvedColor color)

/-- `Color::Color(CurrentColor&&)`. -/
def ofCurrentColor : Color A := store ⟨.invalid⟩ .currentColor

/-- `Color::Color(Ref<ExtendedStyleColor>&&)`. -/
def ofExtendedStyleColor (node : Nat) : Color A := store ⟨.invalid⟩ (.extendedStyleColor node)

/-- `Color::currentColor()`: a `WebCore::Color` on which `setCurrentColor` was called,
wrapped by `Color(WebCore::Color)`. -/
def currentColor : Color A := ofColor (WebCore.Color.invalid).setCurrentColor

/-- `Color::Color(const Color&)`: takes a reference on the node of an extended `other`, then
copies the packed word. Returns the heap after the call and the new value. -/
def copy (heap : Heap K) (other : Color A) : Heap K × Color A :=
  let pointer := other.m_color.decodedOutOfLinePointer
  (if other.isExtendedStyleColor then Function.update heap pointer (heap pointer).ref else heap,
   ⟨other.m_color⟩)

/-- `Color::operator==`. The two operands are objects, given by their addresses in
`objects`, so that the test `this == &other` is the equality of the addresses. -/
def eq (colorEq : WebCore.Color A → WebCore.Color A → Bool) (kindEq : K → K → Bool)
    (heap : Heap K) (objects : Nat → Color A) (this other : Nat) : Bool :=
  if this = other then true
  else if (objects this).isResolvedColor && (objects other).isResolvedColor then
    colorEq (objects this).resolvedColor (objects other).resolvedColor
  else if (objects this).isCurrentColor && (objects other).isCurrentColor then true
  else if (objects this).isExtendedStyleColor && (objects other).isExtendedStyleColor then
    ExtendedStyleColor.eq kindEq ((objects this).extendedStyleColor heap)
      ((objects other).extendedStyleColor heap)
  else false

/-- `Color::resolveColor`; the node's own `ExtendedStyleColor::resolveColor` is the parameter
`nodeResolveColor`. -/
def resolveColor (nodeResolveColor : ExtendedStyleColor K → WebCore.Color A → WebCore.Color A)
    (heap : Heap K) (self : Color A) (currentColor : WebCore.Color A) : WebCore.Color A :=
  if self.isResolvedColor then self.m_color
  else if self.isCurrentColor then currentColor
  else nodeResolveColor (self.extendedStyleColor heap) currentColor

/-- `Color::containsCurrentColor`; the node's own `ExtendedStyleColor::containsCurrentColor`
is the parameter `nodeContainsCurrentColor`. -/
def containsCurrentColor (nodeContainsCurrentColor : ExtendedStyleColor K → Bool)
    (heap : Heap K) (self : Color A) : Bool :=
  if self.isCurrentColor then true
  else if self.isResolvedColor then false
  else nodeContainsCurrentColor (self.extendedStyleColor heap)

end Color

end Style

end WebCore

/-! ## Ownership of the nodes: copy, move, assignment, destruction -/

namespace WebCore

/-- Modelled from the spec: the move assignment of `WebCore::Color` (`Color.h` is not among
the sources), which hands over the packed word and leaves the moved-from colour in the inert
invalid state. Returns the colour assigned to and the state of the source. -/
def Color.moveAssign {A : Type} (other : Color A) : Color A × Color A := (other, .invalid)

namespace Style

/-- `RefCounted::deref` on a node: the count drops by one, and the node is deleted when the
last reference goes, which leaves the count at zero. -/
def ExtendedStyleColor.deref {K : Type} (node : ExtendedStyleColor K) : ExtendedStyleColor K :=
  ⟨node.refCount - 1, node.m_color⟩

/-- `ExtendedStyleColor::create`: `adoptRef(*new ExtendedStyleColor(...))`, a new node with
the initial count one of `RefCounted`, at the address `node` chosen by the allocator. -/
def ExtendedStyleColor.create {K : Type} (heap : Heap K) (node : Nat) (kind : K) : Heap K :=
  Function.update heap node ⟨1, kind⟩

namespace Color

variable {A K : Type}

/-- Whether the value holds the node at the address `node`. -/
def holdsNode (node : Nat) (self : Color A) : Bool :=
  self.isExtendedStyleColor && self.m_color.decodedOutOfLinePointer == node

/-- `Color::invalidColor()`: `return WebCore::Color { };`. -/
def invalidColor : Color A := ofColor .invalid

/-- `Color::Color(Color&&)`: returns the new value and the state `other` is left in. -/
def moveConstruct (other : Color A) : Color A × Color A :=
  if other.isExtendedStyleColor then (⟨other.m_color⟩, ⟨.invalid⟩)
  else (⟨(WebCore.Color.moveAssign other.m_color).1⟩, ⟨(WebCore.Color.moveAssign other.m_color).2⟩)

/-- `Color::operator=(const Color&)` on the objects at the addresses `this` and `other`:
returns the heap and the objects after the call. -/
def copyAssign (heap : Heap K) (objects : Nat → Color A) (this other : Nat) :
    Heap K × (Nat → Color A) :=
  if this = other then (heap, objects)
  else
    let heap1 :=
      if (objects other).isExtendedStyleColor then
        Function.update heap (objects other).m_color.decodedOutOfLinePointer
          ((objects other).extendedStyleColor heap).ref
      else heap
    let heap2 :=
      if (objects this).isExtendedStyleColor then
        Function.update heap1 (objects this).m_color.decodedOutOfLinePointer
          ((objects this).extendedStyleColor heap1).deref
      else heap1
    (heap2, Function.update objects this ⟨(objects other).m_color⟩)

/-- `Color::operator=(Color&&)` on the objects at the addresses `this` and `other`: returns
the heap and the objects after the call. -/
def moveAssign (heap : Heap K) (objects : Nat → Color A) (this other : Nat) :
    Heap K × (Nat → Color A) :=
  if this = other then (heap, objects)
  else
    let heap1 :=
      if (objects this).isExtendedStyleColor then
        Function.update heap (objects this).m_color.decodedOutOfLinePointer
          ((objects this).extendedStyleColor heap).deref
      else heap
    (heap1,
      Function.update (Function.update objects this ⟨(objects other).m_color⟩) other ⟨.invalid⟩)

/-- `Color::~Color`: returns the heap after the call and the state the dying value is left
in. -/
def destroy (heap : Heap K) (self : Color A) : Heap K × Color A :=
  if self.isExtendedStyleColor then
    (Function.update heap self.m_color.decodedOutOfLinePointer
      (self.extendedStyleColor heap).deref, ⟨.invalid⟩)
  else (heap, self)

end Color

/-- The memory a program of colour values runs on: the nodes, the colour objects by address,
and the addresses of the objects that are alive. -/
structure Memory (A K : Type) where
  heap : Heap K
  objects : Nat → Color A
  live : List Nat

/-- The operations on colour values that touch the ownership of nodes. A constructor names
the address `this` of the object it builds. -/
inductive Operation (A K : Type) where
  | construct (this : Nat) (color : WebCore.Color A)
  | create (this node : Nat) (kind : K)
  | copyConstruct (this other : Nat)
  | copyAssign (this other : Nat)
  | moveConstruct (this other : Nat)
  | moveAssign (this other : Nat)
  | destroy (this : Nat)

namespace Memory

variable {A K : Type}

/-- One operation of a well-defined program: a constructor builds at an address that is not
alive, every other operation acts on live objects, a new node is placed at an address whose
count is zero, and `Color(WebCore::Color)` is given a colour that is not a node reference.
An operation outside these conditions has no defined behaviour and yields `none`. -/
def step (s : Memory A K) : Operation A K → Option (Memory A K)
  | .construct this color =>
      if this ∉ s.live ∧ color.isExtendedStyleColor = false then
        some ⟨s.heap, Function.update s.objects this (Color.ofColor color), this :: s.live⟩
      else none
  | .create this node kind =>
      if this ∉ s.live ∧ (s.heap node).refCount = 0 then
        some ⟨ExtendedStyleColor.create s.heap node kind,
          Function.update s.objects this (Color.ofExtendedStyleColor node), this :: s.live⟩
      else none
  | .copyConstruct this other =>
      if this ∉ s.live ∧ other ∈ s.live then
        some ⟨(Color.copy s.heap (s.objects other)).1,
          Function.update s.objects this (Color.copy s.heap (s.objects other)).2,
          this :: s.live⟩
      else none
  | .copyAssign this other =>
      if this ∈ s.live ∧ other ∈ s.live then
        some ⟨(Color.copyAssign s.heap s.objects this other).1,
          (Color.copyAssign s.heap s.objects this other).2, s.live⟩
      else none
  | .moveConstruct this other =>
      if this ∉ s.live ∧ other ∈ s.live then
        some ⟨s.heap,
          Function.update (Function.update s.objects this (Color.moveConstruct (s.objects other)).1)
            other (Color.moveConstruct (s.objects other)).2,
          this :: s.live⟩
      else none
  | .moveAssign this other =>
      if this ∈ s.live ∧ other ∈ s.live then
        some ⟨(Color.moveAssign s.heap s.objects this other).1,
          (Color.moveAssign s.heap s.objects this other).2, s.live⟩
      else none
  | .destroy this =>
      if this ∈ s.live then
        some ⟨(Color.destroy s.heap (s.objects this)).1,
          Function.update s.objects this (Color.destroy s.heap (s.objects this)).2,
          s.live.erase this⟩
      else none

/-- A sequence of operations, run from left to right. -/
def run (s : Memory A K) : List (Operation A K) → Option (Memory A K)
  | [] => some s
  | op :: ops => (s.step op).bind (fun t => t.run ops)

end Memory

end Style

end WebCore

/-! ## Serialization and debug dump

A `StringBuilder` and a `TextStream` are the text appended so far. The serializers and stream
operators of the types declared outside the sources (the absolute colour, the interpolation
method, the percentage number, the node of a `Style::Color`) append a text that depends on the
value; these texts are function parameters. -/

namespace WebCore

namespace StyleColor

variable {A M P : Type}

/-- The tail of `serializationForCSS(StringBuilder&, const StyleColorMix::Component&)`:
`if (component.percentage) builder.append(' ', *component.percentage, '%');`. -/
def appendPercentage (numberText : P → String) (builder : String) : Option P → String
  | some percentage => builder ++ " " ++ numberText percentage ++ "%"
  | none => builder

/-- The text that follows the colour of a mix component, as the claim about the serialization
of a colour-mix words it: a blank, the percentage and a percent sign when the percentage is
present, nothing when it is absent. -/
def percentageSuffix (numberText : P → String) : Option P → String
  | some percentage => " " ++ numberText percentage ++ "%"
  | none => ""

/-- `serializationForCSS(StringBuilder&, const StyleColor&)`, with the overloads for
`ExtendedStyleColor`, `StyleCurrentColor`, `StyleColorMix` and `StyleColorMix::Component`
that it reaches. Returns the builder after the call. -/
def serializationForCSSInto (colorText : A → String) (methodText : M → String)
    (numberText : P → String) : StyleColor A M P → String → String
  | .absolute m_color, builder => builder ++ colorText m_color
  | .extended .currentColor, builder => builder ++ "currentcolor"
  | .extended (.colorMix ⟨method, ⟨color1, percentage1⟩, ⟨color2, percentage2⟩⟩), builder =>
      appendPercentage numberText
        (serializationForCSSInto colorText methodText numberText color2
          (appendPercentage numberText
            (serializationForCSSInto colorText methodText numberText color1
              (builder ++ "color-mix(in " ++ methodText method ++ ", "))
            percentage1 ++ ", "))
        percentage2 ++ ")"

/-- The `String`-returning `serializationForCSS(const T&)` template at `StyleColor`: a fresh
builder, the builder form, `builder.toString()`. -/
def serializationForCSS (colorText : A → String) (methodText : M → String)
    (numberText : P → String) (color : StyleColor A M P) : String :=
  serializationForCSSInto colorText methodText numberText color ""

/-- The tail of `operator<<(TextStream&, const StyleColorMix::Component&)`:
`if (component.percentage) ts << " " << *component.percentage << "%";`. -/
def dumpPercentage (numberDump : P → String) (ts : String) : Option P → String
  | some percentage => ts ++ " " ++ numberDump percentage ++ "%"
  | none => ts

/-- `operator<<(TextStream&, const StyleColor&)`, with the operators for
`ExtendedStyleColor`, `StyleCurrentColor`, `StyleColorMix` and `StyleColorMix::Component`
that it reaches; `colorDescription` is `Color::debugDescription`. Returns the stream after
the call. -/
def dumpInto (colorDescription : A → String) (methodDump : M → String)
    (numberDump : P → String) : StyleColor A M P → String → String
  | .absolute m_color, out =>
      out ++ "StyleColor[" ++ "absoluteColor(" ++ colorDescription m_color ++ ")" ++ "]"
  | .extended .currentColor, out => out ++ "StyleColor[" ++ "currentColor" ++ "]"
  | .extended (.colorMix ⟨method, ⟨color1, percentage1⟩, ⟨color2, percentage2⟩⟩), out =>
      dumpPercentage numberDump
        (dumpInto colorDescription methodDump numberDump color2
          (dumpPercentage numberDump
            (dumpInto colorDescription methodDump numberDump color1
              (out ++ "StyleColor[" ++ "color-mix(" ++ "in " ++ methodDump method ++ ", "))
            percentage1 ++ ", "))
        percentage2 ++ ")" ++ "]"

/-- `StyleColor::debugDescription`: a fresh stream, `ts << *this`, `ts.release()`. -/
def debugDescription (colorDescription : A → String) (methodDump : M → String)
    (numberDump : P → String) (color : StyleColor A M P) : String :=
  dumpInto colorDescription methodDump numberDump color ""

end StyleColor

namespace Style

namespace Color

variable {A K : Type}

/-- The `String`-returning `serializationForCSS(const Color&)`; `colorText` is
`WebCore::serializationForCSS` of a colour and `nodeText` the `String`-returning serializer of
a node. -/
def serializationForCSS (colorText : WebCore.Color A → String)
    (nodeText : ExtendedStyleColor K → String) (heap : Heap K) (color : Color A) : String :=
  if color.isCurrentColor then "currentcolor"
  else if color.isResolvedColor then colorText color.resolvedColor
  else nodeText (color.extendedStyleColor heap)

/-- `serializationForCSS(StringBuilder&, const Color&)`; `nodeBuilderText` is the text the
builder form of the node serializer appends. Returns the builder after the call. -/
def serializationForCSSInto (colorText : WebCore.Color A → String)
    (nodeBuilderText : ExtendedStyleColor K → String) (heap : Heap K) (builder : String)
    (color : Color A) : String :=
  if color.isCurrentColor then builder ++ "currentcolor"
  else if color.isResolvedColor then builder ++ colorText color.resolvedColor
  else builder ++ nodeBuilderText (color.extendedStyleColor heap)

/-- `operator<<(TextStream&, const Color&)`; `colorDump` and `nodeDump` are the texts the
stream operators of `WebCore::Color` and of the node append. Returns the stream after the
call. -/
def dumpInto (colorDump : WebCore.Color A → String) (nodeDump : ExtendedStyleColor K → String)
    (heap : Heap K) (out : String) (color : Color A) : String :=
  (if color.isCurrentColor then out ++ "StyleColor[" ++ "currentcolor"
   else if color.isResolvedColor then out ++ "StyleColor[" ++ colorDump color.resolvedColor
   else out ++ "StyleColor[" ++ nodeDump (color.extendedStyleColor heap)) ++ "]"

/-- `Color::debugDescription`: a fresh stream, `ts << *this`, `ts.release()`. -/
def debugDescription (colorDump : WebCore.Color A → String)
    (nodeDump : ExtendedStyleColor K → String) (heap : Heap K) (color : Color A) : String :=
  dumpInto colorDump nodeDump heap "" color

end Color

end Style

end WebCore

namespace WebCore

namespace StyleColor

variable {A M P : Type}

/-- The depth of a colour tree: zero for a leaf, one more than the deeper component for a
colour-mix. -/
def depth : StyleColor A M P → Nat
  | .absolute _ => 0
  | .extended .currentColor => 0
  | .extended (.colorMix ⟨_, ⟨color1, _⟩, ⟨color2, _⟩⟩) => max (depth color1) (depth color2) + 1

/-- The number of values in a colour tree, the value itself included. -/
def size : StyleColor A M P → Nat
  | .absolute _ => 1
  | .extended .currentColor => 1
  | .extended (.colorMix ⟨_, ⟨color1, _⟩, ⟨color2, _⟩⟩) => size color1 + size color2 + 1

/-- `StyleColor::resolveColor` run with a bound `fuel` on the depth of nested calls: `none`
when the bound is reached before the call returns. -/
def resolveColorFuel (mix : CSSResolvedColorMix A M P → A) :
    Nat → StyleColor A M P → A → Option A
  | 0, _, _ => none
  | _ + 1, .absolute m_color, _ => some m_color
  | _ + 1, .extended .currentColor, currentColor => some currentColor
  | fuel + 1, .extended (.colorMix ⟨method, ⟨color1, percentage1⟩, ⟨color2, percentage2⟩⟩),
      currentColor =>
      match resolveColorFuel mix fuel color1 currentColor,
        resolveColorFuel mix fuel color2 currentColor with
      | some resolved1, some resolved2 =>
          some (mix ⟨method, ⟨resolved1, percentage1⟩, ⟨resolved2, percentage2⟩⟩)
      | _, _ => none

/-- `StyleColor::containsCurrentColor` run with a bound `fuel` on the depth of nested calls;
the second component is only looked at when the first does not contain `currentcolor`. -/
def containsCurrentColorFuel : Nat → StyleColor A M P → Option Bool
  | 0, _ => none
  | _ + 1, .absolute _ => some false
  | _ + 1, .extended .currentColor => some true
  | fuel + 1, .extended (.colorMix ⟨_, ⟨color1, _⟩, ⟨color2, _⟩⟩) =>
      match containsCurrentColorFuel fuel color1 with
      | some true => some true
      | some false => containsCurrentColorFuel fuel color2
      | none => none

/-- `serializationForCSS(StringBuilder&, const StyleColor&)` run with a bound `fuel` on the
depth of nested calls. -/
def serializationForCSSIntoFuel (colorText : A → String) (methodText : M → String)
    (numberText : P → String) : Nat → StyleColor A M P → String → Option String
  | 0, _, _ => none
  | _ + 1, .absolute m_color, builder => some (builder ++ colorText m_color)
  | _ + 1, .extended .currentColor, builder => some (builder ++ "currentcolor")
  | fuel + 1, .extended (.colorMix ⟨method, ⟨color1, percentage1⟩, ⟨color2, percentage2⟩⟩),
      builder =>
      match serializationForCSSIntoFuel colorText methodText numberText fuel color1
          (builder ++ "color-mix(in " ++ methodText method ++ ", ") with
      | none => none
      | some builder1 =>
          match serializationForCSSIntoFuel colorText methodText numberText fuel color2
              (appendPercentage numberText builder1 percentage1 ++ ", ") with
          | none => none
          | some builder2 => some (appendPercentage numberText builder2 percentage2 ++ ")")

/-- `operator<<(TextStream&, const StyleColor&)` run with a bound `fuel` on the depth of
nested calls. -/
def dumpIntoFuel (colorDescription : A → String) (methodDump : M → String)
    (numberDump : P → String) : Nat → StyleColor A M P → String → Option String
  | 0, _, _ => none
  | _ + 1, .absolute m_color, out =>
      some (out ++ "StyleColor[" ++ "absoluteColor(" ++ colorDescription m_color ++ ")" ++ "]")
  | _ + 1, .extended .currentColor, out => some (out ++ "StyleColor[" ++ "currentColor" ++ "]")
  | fuel + 1, .extended (.colorMix ⟨method, ⟨color1, percentage1⟩, ⟨color2, percentage2⟩⟩),
      out =>
      match dumpIntoFuel colorDescription methodDump numberDump fuel color1
          (out ++ "StyleColor[" ++ "color-mix(" ++ "in " ++ methodDump method ++ ", ") with
      | none => none
      | some out1 =>
          match dumpIntoFuel colorDescription methodDump numberDump fuel color2
              (dumpPercentage numberDump out1 percentage1 ++ ", ") with
          | none => none
          | some out2 => some (dumpPercentage numberDump out2 percentage2 ++ ")" ++ "]")

end StyleColor

end WebCore

/-! ## The read-only operations with their references and assertions

The operations of `Style::Color` once more, this time with what the definitions above leave
out: the temporary `Ref` that `protectedExtendedStyleColor()` holds during the call into the
node, and the assertions of the accessors. A result `none` is a failed assertion; a result
`some` carries the heap after the call. -/

namespace WebCore

namespace Style

namespace Color

variable {A K : Type}

/-- `Color::resolvedColor` with its `ASSERT(isResolvedColor())`. -/
def resolvedColorChecked (self : Color A) : Option (WebCore.Color A) :=
  if self.isResolvedColor then some self.m_color else none

/-- `Color::extendedStyleColor` with its `ASSERT(isExtendedStyleColor())`: the address of the
node. -/
def extendedStyleColorChecked (self : Color A) : Option Nat :=
  if self.isExtendedStyleColor then some self.m_color.decodedOutOfLinePointer else none

/-- `Color::protectedExtendedStyleColor`: a `Ref` made from `extendedStyleColor()`, which
takes a reference on the node. Returns the heap after the call and the address the `Ref`
holds. -/
def protectedExtendedStyleColor (heap : Heap K) (self : Color A) : Option (Heap K × Nat) :=
  self.extendedStyleColorChecked.map
    (fun pointer => (Function.update heap pointer (heap pointer).ref, pointer))

/-- The destructor of the temporary `Ref<const ExtendedStyleColor>`: `deref` on its node. -/
def releaseRef (heap : Heap K) (pointer : Nat) : Heap K :=
  Function.update heap pointer (heap pointer).deref

/-- `Color::operator==` with the assertions of the accessors it calls. -/
def eqChecked (colorEq : WebCore.Color A → WebCore.Color A → Bool) (kindEq : K → K → Bool)
    (heap : Heap K) (objects : Nat → Color A) (this other : Nat) : Option Bool :=
  if this = other then some true
  else if (objects this).isResolvedColor && (objects other).isResolvedColor then
    (objects this).resolvedColorChecked.bind (fun a =>
      (objects other).resolvedColorChecked.map (fun b => colorEq a b))
  else if (objects this).isCurrentColor && (objects other).isCurrentColor then some true
  else if (objects this).isExtendedStyleColor && (objects other).isExtendedStyleColor then
    (objects this).extendedStyleColorChecked.bind (fun a =>
      (objects other).extendedStyleColorChecked.map (fun b =>
        ExtendedStyleColor.eq kindEq (heap a) (heap b)))
  else some false

/-- `Color::resolveColor` with its `ASSERT(isExtendedStyleColor())`, the assertion of the
accessor and the temporary `Ref` held while the node resolves. -/
def resolveColorChecked
    (nodeResolveColor : ExtendedStyleColor K → WebCore.Color A → WebCore.Color A)
    (heap : Heap K) (self : Color A) (currentColor : WebCore.Color A) :
    Option (Heap K × WebCore.Color A) :=
  if self.isResolvedColor then some (heap, self.m_color)
  else if self.isCurrentColor then some (heap, currentColor)
  else if self.isExtendedStyleColor then
    (self.protectedExtendedStyleColor heap).map
      (fun ref => (releaseRef ref.1 ref.2, nodeResolveColor (ref.1 ref.2) currentColor))
  else none

/-- `Color::containsCurrentColor` with the assertion of the accessor and the temporary `Ref`
held while the node answers. -/
def containsCurrentColorChecked (nodeContainsCurrentColor : ExtendedStyleColor K → Bool)
    (heap : Heap K) (self : Color A) : Option (Heap K × Bool) :=
  if self.isCurrentColor then some (heap, true)
  else if self.isResolvedColor then some (heap, false)
  else
    (self.protectedExtendedStyleColor heap).map
      (fun ref => (releaseRef ref.1 ref.2, nodeContainsCurrentColor (ref.1 ref.2)))

/-- The `String`-returning `serializationForCSS(const Color&)` with the assertions of the
accessors and the temporary `Ref`. -/
def serializationForCSSChecked (colorText : WebCore.Color A → String)
    (nodeText : ExtendedStyleColor K → String) (heap : Heap K) (color : Color A) :
    Option (Heap K × String) :=
  if color.isCurrentColor then some (heap, "currentcolor")
  else if color.isResolvedColor then
    color.resolvedColorChecked.map (fun resolved => (heap, colorText resolved))
  else
    (color.protectedExtendedStyleColor heap).map
      (fun ref => (releaseRef ref.1 ref.2, nodeText (ref.1 ref.2)))

/-- `serializationForCSS(StringBuilder&, const Color&)` with the assertions of the accessors
and the temporary `Ref`. -/
def serializationForCSSIntoChecked (colorText : WebCore.Color A → String)
    (nodeBuilderText : ExtendedStyleColor K → String) (heap : Heap K) (builder : String)
    (color : Color A) : Option (Heap K × String) :=
  if color.isCurrentColor then some (heap, builder ++ "currentcolor")
  else if color.isResolvedColor then
    color.resolvedColorChecked.map (fun resolved => (heap, builder ++ colorText resolved))
  else
    (color.protectedExtendedStyleColor heap).map
      (fun ref => (releaseRef ref.1 ref.2, builder ++ nodeBuilderText (ref.1 ref.2)))

/-- `operator<<(TextStream&, const Color&)` with the assertions of the accessors and the
temporary `Ref`. -/
def dumpIntoChecked (colorDump : WebCore.Color A → String)
    (nodeDump : ExtendedStyleColor K → String) (heap : Heap K) (out : String)
    (color : Color A) : Option (Heap K × String) :=
  (if color.isCurrentColor then some (heap, out ++ "StyleColor[" ++ "currentcolor")
   else if color.isResolvedColor then
     color.resolvedColorChecked.map
       (fun resolved => (heap, out ++ "StyleColor[" ++ colorDump resolved))
   else
     (color.protectedExtendedStyleColor heap).map
       (fun ref => (releaseRef ref.1 ref.2, out ++ "StyleColor[" ++ nodeDump (ref.1 ref.2)))).map
    (fun r => (r.1, r.2 ++ "]"))

/-- `Color::debugDescription` with the assertions and the temporary `Ref`. -/
def debugDescriptionChecked (colorDump : WebCore.Color A → String)
    (nodeDump : ExtendedStyleColor K → String) (heap : Heap K) (color : Color A) :
    Option (Heap K × String) :=
  dumpIntoChecked colorDump nodeDump heap "" color

end Color

end Style

end WebCore

/-! ## The kinds of composite node, from the specification -/

namespace WebCore

namespace Style

mutual

/-- Modelled from the spec: a colour value stored inside a composite node, with the logical
variants of the data model: an absolute colour, the `currentcolor` marker, or a composite
whose node is given by its kind. The headers that declare the children of the node kinds
(`StyleColorMix.h`, `StyleColorLayers.h`, `StyleContrastColor.h`, `StyleRelativeColor.h`) are
not among the sources. -/
inductive ColorValue (C M P Q R : Type) where
  | absolute (color : C)
  | currentColor
  | composite (node : ExtendedColorKind C M P Q R)

/-- Modelled from the spec: the `ExtendedColorKind` variant of `ExtendedStyleColor.h`, whose
alternatives are declared outside the sources. The spec gives a node one of the kinds `Mix`
(interpolation method and two components, each a colour with an optional percentage),
`Layers` (an ordered sequence of colours), `Contrast` (the colour to contrast against, the
ordered candidates, the parameters of the algorithm) and `Relative` (an origin colour and the
channel expressions with their colour space, the fifteen `RelativeColor` alternatives). -/
inductive ExtendedColorKind (C M P Q R : Type) where
  | colorMix (method : M) (color1 : ColorValue C M P Q R) (percentage1 : Option P)
      (color2 : ColorValue C M P Q R) (percentage2 : Option P)
  | colorLayers (colors : List (ColorValue C M P Q R))
  | contrastColor (against : ColorValue C M P Q R) (candidates : List (ColorValue C M P Q R))
      (algorithmParams : Q)
  | relativeColor (origin : ColorValue C M P Q R) (channels : R)

end

/-- Modelled from the spec: the colorimetric collaborators consumed by resolution, pure
functions of absolute colours already resolved, and the fully transparent colour. -/
structure Collaborators (C M P Q R : Type) where
  mix : M → C → Option P → C → Option P → C
  compositeLayers : List C → C
  selectByContrast : C → List C → Q → C
  evaluateRelative : C → R → C
  transparent : C

mutual

/-- Modelled from the spec: the resolver on a stored value: an absolute colour resolves to
itself, `currentcolor` to the current colour, a composite by its node. -/
def ColorValue.resolve {C M P Q R : Type} (k : Collaborators C M P Q R) :
    ColorValue C M P Q R → C → C
  | .absolute color, _ => color
  | .currentColor, currentColor => currentColor
  | .composite node, currentColor => ExtendedColorKind.resolve k node currentColor

/-- Modelled from the spec: `ExtendedStyleColor::resolveColor` (its definition is not among
the sources). Every child is resolved with the same current colour and the resolved children
are handed to the collaborator of the kind; a `Layers` node without layers resolves to the
fully transparent colour. -/
def ExtendedColorKind.resolve {C M P Q R : Type} (k : Collaborators C M P Q R) :
    ExtendedColorKind C M P Q R → C → C
  | .colorMix method color1 percentage1 color2 percentage2, currentColor =>
      k.mix method (ColorValue.resolve k color1 currentColor) percentage1
        (ColorValue.resolve k color2 currentColor) percentage2
  | .colorLayers [], _ => k.transparent
  | .colorLayers (color :: colors), currentColor =>
      k.compositeLayers (ColorValue.resolveAll k (color :: colors) currentColor)
  | .contrastColor against candidates algorithmParams, currentColor =>
      k.selectByContrast (ColorValue.resolve k against currentColor)
        (ColorValue.resolveAll k candidates currentColor) algorithmParams
  | .relativeColor origin channels, currentColor =>
      k.evaluateRelative (ColorValue.resolve k origin currentColor) channels

/-- Modelled from the spec: the ordered sequence of the resolved children of a node. -/
def ColorValue.resolveAll {C M P Q R : Type} (k : Collaborators C M P Q R) :
    List (ColorValue C M P Q R) → C → List C
  | [], _ => []
  | color :: colors, currentColor =>
      ColorValue.resolve k color currentColor :: ColorValue.resolveAll k colors currentColor

end

namespace Color

variable {A K : Type}

/-- `Color::makeIndirectColor`: `ExtendedStyleColor::create` of the kind, at the address
`node` chosen by the allocator, as the `Ref` alternative of `ColorKind`. Returns the heap
after the call and the `ColorKind`. -/
def makeIndirectColor (heap : Heap K) (node : Nat) (kind : K) : Heap K × ColorKind A :=
  (ExtendedStyleColor.create heap node kind, .extendedStyleColor node)

/-- `Color::Color(ColorLayers&&)`: `store(makeIndirectColor(WTFMove(colorLayers)))`. -/
def ofColorLayers {M P Q R : Type}
    (heap : Heap (ExtendedColorKind (WebCore.Color A) M P Q R)) (node : Nat)
    (colors : List (ColorValue (WebCore.Color A) M P Q R)) :
    Heap (ExtendedColorKind (WebCore.Color A) M P Q R) × Color A :=
  ((makeIndirectColor heap node (.colorLayers colors) : _ × ColorKind A).1,
    store ⟨.invalid⟩ (makeIndirectColor heap node (ExtendedColorKind.colorLayers colors)).2)

end Color

end Style

end WebCore

/-! ## Equality of the legacy colour-mix -/

namespace WebCore

namespace StyleColorMix

variable {C M P : Type}

/-- The `operator==` of `std::optional`: two empty optionals are equal, an empty and an
engaged one are not, two engaged ones compare their values. -/
def optionalEq (numberEq : P → P → Bool) : Option P → Option P → Bool
  | some a, some b => numberEq a b
  | none, none => true
  | _, _ => false

/-- The defaulted `StyleColorMix::Component::operator==`: the members `color` and
`percentage` in their order; `colorEq` is `StyleColor::operator==`. -/
def Component.eq (colorEq : C → C → Bool) (numberEq : P → P → Bool)
    (a b : StyleColorMix.Component C P) : Bool :=
  colorEq a.color b.color && optionalEq numberEq a.percentage b.percentage

/-- The defaulted `StyleColorMix::operator==`: the members `colorInterpolationMethod`,
`mixComponents1` and `mixComponents2` in their order. It is also
`operator==(const UniqueRef<StyleColorMix>&, const UniqueRef<StyleColorMix>&)`, which
compares `a.get() == b.get()`. -/
def eq (methodEq : M → M → Bool) (colorEq : C → C → Bool) (numberEq : P → P → Bool)
    (a b : StyleColorMix C M P) : Bool :=
  methodEq a.colorInterpolationMethod b.colorInterpolationMethod
    && Component.eq colorEq numberEq a.mixComponents1 b.mixComponents1
    && Component.eq colorEq numberEq a.mixComponents2 b.mixComponents2

end StyleColorMix

/-- The `operator==` of the variant `ExtendedStyleColor::Kind`: the same alternative on both
sides and equal values, two `StyleCurrentColor` being equal by
`operator==(const StyleCurrentColor&, const StyleCurrentColor&)`. -/
def ExtendedStyleColor.kindEq {C M P : Type} (methodEq : M → M → Bool) (colorEq : C → C → Bool)
    (numberEq : P → P → Bool) : ExtendedStyleColor C M P → ExtendedStyleColor C M P → Bool
  | .colorMix a, .colorMix b => StyleColorMix.eq methodEq colorEq numberEq a b
  | .currentColor, .currentColor => true
  | _, _ => false

end WebCore

/-! ## Colours of a `RenderStyle`: `rendering/style/RenderStyleResolveColor.h` -/

namespace WebCore

/-- The colour properties named in `RenderStyleResolveColor.h`, and `other` for every other
`CSSPropertyID`. -/
inductive CSSPropertyID where
  | CSSPropertyAccentColor
  | CSSPropertyColor
  | CSSPropertyBackgroundColor
  | CSSPropertyBorderBottomColor
  | CSSPropertyBorderLeftColor
  | CSSPropertyBorderRightColor
  | CSSPropertyBorderTopColor
  | CSSPropertyFill
  | CSSPropertyFloodColor
  | CSSPropertyLightingColor
  | CSSPropertyOutlineColor
  | CSSPropertyStopColor
  | CSSPropertyStroke
  | CSSPropertyStrokeColor
  | CSSPropertyBorderBlockEndColor
  | CSSPropertyBorderBlockStartColor
  | CSSPropertyBorderInlineEndColor
  | CSSPropertyBorderInlineStartColor
  | CSSPropertyColumnRuleColor
  | CSSPropertyTextEmphasisColor
  | CSSPropertyWebkitTextFillColor
  | CSSPropertyWebkitTextStrokeColor
  | CSSPropertyTextDecorationColor
  | CSSPropertyCaretColor
  | other (id : Nat)
  deriving DecidableEq

/-- The four logical border colour properties, which `unresolvedColorForProperty` hands to
`CSSProperty::resolveDirectionAwareProperty`. -/
def CSSPropertyID.isLogicalBorderColor : CSSPropertyID → Bool
  | .CSSPropertyBorderBlockEndColor => true
  | .CSSPropertyBorderBlockStartColor => true
  | .CSSPropertyBorderInlineEndColor => true
  | .CSSPropertyBorderInlineStartColor => true
  | _ => false

/-- The `InsideLink` enumeration as `RenderStyle::insideLink()` returns it. -/
inductive InsideLink where
  | NotInside
  | InsideUnvisited
  | InsideVisited
  deriving DecidableEq

/-- The `PaintBehavior` flags: the one the sources name, and `other` for the rest. -/
inductive PaintBehavior where
  | DontShowVisitedLinks
  | other (bit : Nat)
  deriving DecidableEq

/-- The part of a `RenderStyle` that `RenderStyleResolveColor.h` reads, each field being the
accessor of that name. `color()` and `visitedLinkColor()` are absolute colours, the other
colour accessors give a `StyleColor`; `D` and `W` are the types of the text direction and of
the writing mode. -/
structure RenderStyle (A M P D W : Type) where
  accentColor : StyleColor A M P
  color : A
  visitedLinkColor : A
  backgroundColor : StyleColor A M P
  visitedLinkBackgroundColor : StyleColor A M P
  borderBottomColor : StyleColor A M P
  visitedLinkBorderBottomColor : StyleColor A M P
  borderLeftColor : StyleColor A M P
  visitedLinkBorderLeftColor : StyleColor A M P
  borderRightColor : StyleColor A M P
  visitedLinkBorderRightColor : StyleColor A M P
  borderTopColor : StyleColor A M P
  visitedLinkBorderTopColor : StyleColor A M P
  fillPaintColor : StyleColor A M P
  floodColor : StyleColor A M P
  lightingColor : StyleColor A M P
  outlineColor : StyleColor A M P
  visitedLinkOutlineColor : StyleColor A M P
  stopColor : StyleColor A M P
  strokePaintColor : StyleColor A M P
  strokeColor : StyleColor A M P
  visitedLinkStrokeColor : StyleColor A M P
  columnRuleColor : StyleColor A M P
  visitedLinkColumnRuleColor : StyleColor A M P
  textEmphasisColor : StyleColor A M P
  visitedLinkTextEmphasisColor : StyleColor A M P
  textFillColor : StyleColor A M P
  visitedLinkTextFillColor : StyleColor A M P
  textStrokeColor : StyleColor A M P
  visitedLinkTextStrokeColor : StyleColor A M P
  textDecorationColor : StyleColor A M P
  visitedLinkTextDecorationColor : StyleColor A M P
  caretColor : StyleColor A M P
  visitedLinkCaretColor : StyleColor A M P
  direction : D
  writingMode : W
  hasPositiveStrokeWidth : Bool
  usedStrokeColorProperty : CSSPropertyID
  insideLink : InsideLink
  isInSubtreeWithBlendMode : Bool

/-- What `RenderStyleResolveColor.h` takes from declarations outside the sources:
`CSSProperty::resolveDirectionAwareProperty`, the default value that the declaration of
`unresolvedColorForProperty` gives its parameter `visitedLink` (the call for the logical
properties passes one argument only), `mix`, and of `WebCore::Color` the members
`isVisible`, `operator==`, `transparentBlack`, `colorWithAlpha` and `alphaAsFloat`, the alpha
being of a type `F`. -/
structure RenderStyle.Environment (A M P D W F : Type) where
  resolveDirectionAwareProperty : CSSPropertyID → D → W → CSSPropertyID
  defaultVisitedLink : Bool
  mix : CSSResolvedColorMix A M P → A
  isVisible : A → Bool
  colorEq : A → A → Bool
  transparentBlack : A
  colorWithAlpha : A → F → A
  alphaAsFloat : A → F

namespace RenderStyle

variable {A M P D W F : Type}

/-- `RenderStyle::unresolvedColorForProperty`, run with a bound `fuel` on the depth of nested
calls (`none` when the bound is reached). A property that is not a colour property reaches
`ASSERT_NOT_REACHED()` and, past it, `return { }`. -/
def unresolvedColorForProperty (env : Environment A M P D W F) (style : RenderStyle A M P D W) :
    Nat → CSSPropertyID → Bool → Option (StyleColor A M P)
  | 0, _, _ => none
  | fuel + 1, colorProperty, visitedLink =>
    match colorProperty with
    | .CSSPropertyAccentColor => some style.accentColor
    | .CSSPropertyColor =>
        some (if visitedLink then StyleColor.ofColor style.visitedLinkColor
          else StyleColor.ofColor style.color)
    | .CSSPropertyBackgroundColor =>
        some (if visitedLink then style.visitedLinkBackgroundColor else style.backgroundColor)
    | .CSSPropertyBorderBottomColor =>
        some (if visitedLink then style.visitedLinkBorderBottomColor
          else style.borderBottomColor)
    | .CSSPropertyBorderLeftColor =>
        some (if visitedLink then style.visitedLinkBorderLeftColor else style.borderLeftColor)
    | .CSSPropertyBorderRightColor =>
        some (if visitedLink then style.visitedLinkBorderRightColor else style.borderRightColor)
    | .CSSPropertyBorderTopColor =>
        some (if visitedLink then style.visitedLinkBorderTopColor else style.borderTopColor)
    | .CSSPropertyFill => some style.fillPaintColor
    | .CSSPropertyFloodColor => some style.floodColor
    | .CSSPropertyLightingColor => some style.lightingColor
    | .CSSPropertyOutlineColor =>
        some (if visitedLink then style.visitedLinkOutlineColor else style.outlineColor)
    | .CSSPropertyStopColor => some style.stopColor
    | .CSSPropertyStroke => some style.strokePaintColor
    | .CSSPropertyStrokeColor =>
        some (if visitedLink then style.visitedLinkStrokeColor else style.strokeColor)
    | .CSSPropertyBorderBlockEndColor
    | .CSSPropertyBorderBlockStartColor
    | .CSSPropertyBorderInlineEndColor
    | .CSSPropertyBorderInlineStartColor =>
        unresolvedColorForProperty env style fuel
          (env.resolveDirectionAwareProperty colorProperty style.direction style.writingMode)
          env.defaultVisitedLink
    | .CSSPropertyColumnRuleColor =>
        some (if visitedLink then style.visitedLinkColumnRuleColor else style.columnRuleColor)
    | .CSSPropertyTextEmphasisColor =>
        some (if visitedLink then style.visitedLinkTextEmphasisColor
          else style.textEmphasisColor)
    | .CSSPropertyWebkitTextFillColor =>
        some (if visitedLink then style.visitedLinkTextFillColor else style.textFillColor)
    | .CSSPropertyWebkitTextStrokeColor =>
        some (if visitedLink then style.visitedLinkTextStrokeColor else style.textStrokeColor)
    | .CSSPropertyTextDecorationColor =>
        some (if visitedLink then style.visitedLinkTextDecorationColor
          else style.textDecorationColor)
    | .CSSPropertyCaretColor =>
        some (if visitedLink then style.visitedLinkCaretColor else style.caretColor)
    | .other _ => some StyleColor.default

/-- `RenderStyle::colorResolvingCurrentColor(const StyleColor&, bool)`. -/
def colorResolvingCurrentColorOf (env : Environment A M P D W F)
    (style : RenderStyle A M P D W) (color : StyleColor A M P) (visitedLink : Bool) : A :=
  color.resolveColor env.mix (if visitedLink then style.visitedLinkColor else style.color)

/-- `RenderStyle::colorResolvingCurrentColor(CSSPropertyID, bool)`, run with a bound `fuel`
on the depth of nested calls (`none` when the bound is reached). -/
def colorResolvingCurrentColor (env : Environment A M P D W F)
    (style : RenderStyle A M P D W) : Nat → CSSPropertyID → Bool → Option A
  | 0, _, _ => none
  | fuel + 1, colorProperty, visitedLink =>
    match unresolvedColorForProperty env style fuel colorProperty visitedLink with
    | none => none
    | some result =>
      if colorProperty = .CSSPropertyTextDecorationColor ∧ result.isCurrentColor = true then
        if style.hasPositiveStrokeWidth then
          match colorResolvingCurrentColor env style fuel style.usedStrokeColorProperty
              visitedLink with
          | none => none
          | some strokeColor =>
            if env.isVisible strokeColor then some strokeColor
            else colorResolvingCurrentColor env style fuel .CSSPropertyWebkitTextFillColor
              visitedLink
        else colorResolvingCurrentColor env style fuel .CSSPropertyWebkitTextFillColor
          visitedLink
      else some (colorResolvingCurrentColorOf env style result visitedLink)

/-- `RenderStyle::visitedDependentColor`, run with a bound `fuel` on the depth of nested
calls (`none` when the bound is reached). -/
def visitedDependentColor (env : Environment A M P D W F) (style : RenderStyle A M P D W)
    (fuel : Nat) (colorProperty : CSSPropertyID) (paintBehavior : List PaintBehavior) :
    Option A :=
  match colorResolvingCurrentColor env style fuel colorProperty false with
  | none => none
  | some unvisitedColor =>
    if style.insideLink ≠ .InsideVisited then some unvisitedColor
    else if paintBehavior.contains .DontShowVisitedLinks then some unvisitedColor
    else if style.isInSubtreeWithBlendMode then some unvisitedColor
    else
      match colorResolvingCurrentColor env style fuel colorProperty true with
      | none => none
      | some visitedColor =>
        if colorProperty = .CSSPropertyBackgroundColor
            ∧ env.colorEq visitedColor env.transparentBlack = true then
          some unvisitedColor
        else some (env.colorWithAlpha visitedColor (env.alphaAsFloat unvisitedColor))

end RenderStyle

end WebCore

namespace WebCore

/-- A style for the examples: every colour accessor without a visited-link variant and every
unvisited accessor gives `unvisited`, every visited-link accessor gives `visited`, the text
decoration colours are `decoration`, and the used stroke colour property is
`-webkit-text-stroke-color`. -/
def RenderStyle.sample {A M P D W : Type} (unvisited visited decoration : StyleColor A M P)
    (color visitedLinkColor : A) (direction : D) (writingMode : W)
    (hasPositiveStrokeWidth : Bool) (insideLink : InsideLink)
    (isInSubtreeWithBlendMode : Bool) : RenderStyle A M P D W :=
  ⟨unvisited, color, visitedLinkColor, unvisited, visited, unvisited, visited, unvisited,
    visited, unvisited, visited, unvisited, visited, unvisited, unvisited, unvisited,
    unvisited, visited, unvisited, unvisited, unvisited, visited, unvisited, visited,
    unvisited, visited, unvisited, visited, unvisited, visited, decoration, decoration,
    unvisited, visited, direction, writingMode, hasPositiveStrokeWidth,
    .CSSPropertyWebkitTextStrokeColor, insideLink, isInSubtreeWithBlendMode⟩

/-- An environment for the examples: a colour is a pair of its channels and its alpha, every
logical border colour maps to `border-top-color`, a colour is visible when its alpha is not
zero, transparent black is the pair of zeros, and `colorWithAlpha` replaces the alpha. -/
def RenderStyle.Environment.sample (defaultVisitedLink : Bool) :
    RenderStyle.Environment (Nat × Nat) Nat Nat Unit Unit Nat :=
  ⟨fun _ _ _ => .CSSPropertyBorderTopColor, defaultVisitedLink,
    fun r => (r.mixComponents1.color.1 + r.mixComponents2.color.1,
      r.mixComponents1.color.2 + r.mixComponents2.color.2),
    fun c => c.2 != 0, fun a b => a == b, (0, 0), fun c a => (c.1, a), fun c => c.2⟩

end WebCore

/-! ## The queue of nodes to delete: `dom/AsyncNodeDeletionQueue.cpp` -/

namespace WebCore

/-- The macro `MAX_SIZE_ASYNC_NODE_DELETION_QUEUE`. -/
def MAX_SIZE_ASYNC_NODE_DELETION_QUEUE : Nat := 500000

/-- The `AsyncNodeDeletionQueue` class: the vector `m_queue` of nodes and the count
`m_numberOfNodes`, an `unsigned` of 32 bits like the parameter `numberOfNodes` that `add`
accumulates in it (the class is declared in `AsyncNodeDeletionQueue.h`, which is not among
the sources). -/
structure AsyncNodeDeletionQueue (N : Type) where
  m_queue : List N
  m_numberOfNodes : Nat

namespace AsyncNodeDeletionQueue

variable {N : Type}

/-- A queue as it is constructed: no node, count zero. -/
def empty : AsyncNodeDeletionQueue N := ⟨[], 0⟩

/-- `AsyncNodeDeletionQueue::add`: the sum and the `+=` are those of `unsigned`, modulo
`2 ^ 32`. Returns the queue after the call and the nodes that `children` still owns: none in
either case, the vector having been cleared (the nodes are deleted at once) or moved into the
queue. -/
def add (self : AsyncNodeDeletionQueue N) (children : List N) (numberOfNodes : Nat) :
    AsyncNodeDeletionQueue N × List N :=
  if (self.m_numberOfNodes + numberOfNodes) % 2 ^ 32 > MAX_SIZE_ASYNC_NODE_DELETION_QUEUE then
    (self, [])
  else
    (⟨self.m_queue ++ children, (self.m_numberOfNodes + numberOfNodes) % 2 ^ 32⟩, [])

/-- `AsyncNodeDeletionQueue::clear`. -/
def clear (_ : AsyncNodeDeletionQueue N) : AsyncNodeDeletionQueue N := ⟨[], 0⟩

/-- A call on the queue: `add(children, numberOfNodes)` or `clear()`. -/
inductive Call (N : Type) where
  | add (children : List N) (numberOfNodes : Nat)
  | clear

/-- A sequence of calls, made from left to right. -/
def run (self : AsyncNodeDeletionQueue N) : List (Call N) → AsyncNodeDeletionQueue N
  | [] => self
  | .add children numberOfNodes :: calls => run (self.add children numberOfNodes).1 calls
  | .clear :: calls => run self.clear calls

end AsyncNodeDeletionQueue

/-! ## Colour keywords: `css/StyleColor.cpp` -/

/-- The values of `CSSValueID` that the keyword predicates compare with; the enumeration is
generated outside the sources, so its numbers are fields. -/
structure CSSValueKeywords where
  CSSValueAqua : Nat
  CSSValueGrey : Nat
  CSSValueAliceblue : Nat
  CSSValueYellowgreen : Nat
  CSSValueAlpha : Nat
  CSSValueTransparent : Nat
  CSSValueCanvas : Nat
  CSSValueInternalDocumentTextColor : Nat
  CSSValueText : Nat
  CSSValueActiveborder : Nat
  CSSValueWindowtext : Nat
  CSSValueMenu : Nat
  CSSValueCurrentcolor : Nat

/-- The enumeration `StyleColor::CSSColorType`. -/
inductive CSSColorType where
  | Absolute
  | Current
  | System
  deriving DecidableEq

namespace StyleColor

/-- `isVGAPaletteColor`. -/
def isVGAPaletteColor (k : CSSValueKeywords) (id : Nat) : Bool :=
  decide (id ≥ k.CSSValueAqua) && decide (id ≤ k.CSSValueGrey)

/-- `isNonVGANamedColor`. -/
def isNonVGANamedColor (k : CSSValueKeywords) (id : Nat) : Bool :=
  decide (id ≥ k.CSSValueAliceblue) && decide (id ≤ k.CSSValueYellowgreen)

/-- `StyleColor::isAbsoluteColorKeyword`. -/
def isAbsoluteColorKeyword (k : CSSValueKeywords) (id : Nat) : Bool :=
  isVGAPaletteColor k id || isNonVGANamedColor k id || decide (id = k.CSSValueAlpha)
    || decide (id = k.CSSValueTransparent)

/-- `StyleColor::isDeprecatedSystemColorKeyword`. -/
def isDeprecatedSystemColorKeyword (k : CSSValueKeywords) (id : Nat) : Bool :=
  (decide (id ≥ k.CSSValueActiveborder) && decide (id ≤ k.CSSValueWindowtext))
    || decide (id = k.CSSValueMenu)

/-- `StyleColor::isSystemColorKeyword`. -/
def isSystemColorKeyword (k : CSSValueKeywords) (id : Nat) : Bool :=
  (decide (id ≥ k.CSSValueCanvas) && decide (id ≤ k.CSSValueInternalDocumentTextColor))
    || decide (id = k.CSSValueText) || isDeprecatedSystemColorKeyword k id

/-- `StyleColor::isCurrentColorKeyword`. -/
def isCurrentColorKeyword (k : CSSValueKeywords) (id : Nat) : Bool :=
  decide (id = k.CSSValueCurrentcolor)

/-- `StyleColor::isColorKeyword`; the `OptionSet<CSSColorType>` is the list of the types it
contains. -/
def isColorKeyword (k : CSSValueKeywords) (id : Nat) (allowedColorTypes : List CSSColorType) :
    Bool :=
  (allowedColorTypes.contains .Absolute && isAbsoluteColorKeyword k id)
    || (allowedColorTypes.contains .Current && isCurrentColorKeyword k id)
    || (allowedColorTypes.contains .System && isSystemColorKeyword k id)

end StyleColor

/-! ## The empty value of `Markable`: `Color::MarkableTraits` -/

namespace Style

namespace Color

variable {A K : Type}

/-- `Color::MarkableTraits::emptyValue`. -/
def MarkableTraits.emptyValue : Color A := invalidColor

/-- `Color::MarkableTraits::isEmptyValue`: `color == Color::invalidColor()`, the right
operand being a temporary object at the address `temporary`. -/
def MarkableTraits.isEmptyValue (colorEq : WebCore.Color A → WebCore.Color A → Bool)
    (kindEq : K → K → Bool) (heap : Heap K) (objects : Nat → Color A)
    (color temporary : Nat) : Bool :=
  eq colorEq kindEq heap (Function.update objects temporary invalidColor) color temporary

end Color

end Style

end WebCore

/-! ## The legacy value as it is stored: `css/StyleColor.cpp` -/

namespace WebCore

namespace StyleColor

variable {A M P : Type}

/-- The legacy nodes made by `new ExtendedStyleColor`: the node stored at each address, and
the address `next` that the next `new` returns. `~StyleColor` deletes no node, so no address
is handed out twice. -/
structure Store (A M P : Type) where
  nodes : Nat → Option (ExtendedStyleColor (StyleColor A M P) M P)
  next : Nat

/-- A store in which no node has been allocated. -/
def Store.empty : Store A M P := ⟨fun _ => none, 0⟩

/-- The legacy `StyleColor` object as it is stored: its single member `m_color`, a packed
`WebCore::Color` word that carries, for an extended value, the pointer to the node. -/
structure Packed (A : Type) where
  m_color : Color A
  deriving DecidableEq

namespace Packed

/-- `StyleColor::setExtendedStyleColor`: the word becomes the encoded pointer to the node with
the flags `Valid` and `ExtendedStyleColor`. -/
def setExtendedStyleColor (_ : Packed A) (pointer : Nat) : Packed A :=
  ⟨.extendedStyleColor pointer⟩

/-- `StyleColor::StyleColor()`: `new ExtendedStyleColor { StyleCurrentColor { } }`, then
`setExtendedStyleColor` on the new node. Returns the store after the call and the value. -/
def default (store : Store A M P) : Store A M P × Packed A :=
  (⟨Function.update store.nodes store.next (some .currentColor), store.next + 1⟩,
   setExtendedStyleColor ⟨.invalid⟩ store.next)

/-- `StyleColor::currentColor()`: `return { };`. -/
def currentColor (store : Store A M P) : Store A M P × Packed A := default store

/-- `StyleColor::isExtendedStyleColor`, on the stored word. -/
def isExtendedStyleColor (self : Packed A) : Bool := self.m_color.isExtendedStyleColor

/-- `StyleColor::isAbsoluteColor`, on the stored word. -/
def isAbsoluteColor (self : Packed A) : Bool := !self.isExtendedStyleColor

/-- `StyleColor::asExtendedStyleColor`: the node at the decoded pointer. -/
def asExtendedStyleColor (store : Store A M P) (self : Packed A) :
    Option (ExtendedStyleColor (StyleColor A M P) M P) :=
  store.nodes self.m_color.decodedOutOfLinePointer

/-- `StyleColor::isCurrentColor`, on the stored word: false on an absolute colour, otherwise
whether the node holds the `StyleCurrentColor` alternative. -/
def isCurrentColor (store : Store A M P) (self : Packed A) : Bool :=
  if self.isAbsoluteColor then false
  else
    match self.asExtendedStyleColor store with
    | some .currentColor => true
    | _ => false

/-- The defaulted `StyleColor::operator==`: it compares the single member `m_color` with
`WebCore::Color::operator==`, the parameter `colorEq`. -/
def eq (colorEq : Color A → Color A → Bool) (a b : Packed A) : Bool :=
  colorEq a.m_color b.m_color

end Packed

end StyleColor

end WebCore

/-! ## Resolution -/

namespace WebCore

variable {A M P K : Type}

/-- C1: a `Style::Color` constructed from an absolute colour `c` (a `WebCore::Color` that is
neither the `currentcolor` marker nor a node reference), through `Color(WebCore::Color)` or
through `Color(ResolvedColor&&)`, resolves to `c` whatever the current colour is. -/
theorem newColor_resolveColor_absolute
    (nodeResolveColor : Style.ExtendedStyleColor K → Color A → Color A) (heap : Style.Heap K)
    (c cur : Color A) (hcurrent : c.isCurrentColor = false)
    (hextended : c.isExtendedStyleColor = false) :
    (Style.Color.ofColor c).resolveColor nodeResolveColor heap cur = c ∧
    (Style.Color.ofResolvedColor c).resolveColor nodeResolveColor heap cur = c := by
  simp [Style.Color.resolveColor, Style.Color.ofColor, Style.Color.ofResolvedColor,
    Style.Color.store, Style.Color.isResolvedColor, Style.Color.isCurrentColor,
    Style.Color.isExtendedStyleColor, hcurrent, hextended]

/-- Witness of C1: red resolved against blue is red. -/
theorem newColor_resolveColor_absolute_witness :
    (Style.Color.ofColor (Color.plain "red")).resolveColor
        (fun (_ : Style.ExtendedStyleColor Nat) c => c) (fun _ => ⟨1, 0⟩) (Color.plain "blue")
      = Color.plain "red" ∧
    (Style.Color.ofResolvedColor (Color.plain "red")).resolveColor
        (fun (_ : Style.ExtendedStyleColor Nat) c => c) (fun _ => ⟨1, 0⟩) (Color.plain "blue")
      = Color.plain "red" :=
  newColor_resolveColor_absolute (fun _ c => c) (fun _ => ⟨1, 0⟩) (Color.plain "red")
    (Color.plain "blue") rfl rfl

/-- C2: a value in the `CurrentColor` state resolves to the current colour: this holds for
`Style::Color(CurrentColor { })`, for the default-constructed `Style::Color`, for
`Style::Color::currentColor()`, and for the legacy `StyleColor::currentColor()`. -/
theorem resolveColor_currentColor
    (nodeResolveColor : Style.ExtendedStyleColor K → Color A → Color A) (heap : Style.Heap K)
    (cur : Color A) (mix : CSSResolvedColorMix A M P → A) (legacyCur : A) :
    (Style.Color.ofCurrentColor : Style.Color A).resolveColor nodeResolveColor heap cur = cur ∧
    (Style.Color.default : Style.Color A).resolveColor nodeResolveColor heap cur = cur ∧
    (Style.Color.currentColor : Style.Color A).resolveColor nodeResolveColor heap cur = cur ∧
    (StyleColor.currentColor : StyleColor A M P).resolveColor mix legacyCur = legacyCur :=
  ⟨rfl, rfl, rfl, rfl⟩

/-- C3: resolving a colour-mix hands `mix` the interpolation method and the two components
in their order, each made of the child resolved with the same current colour and of the
child's optional percentage unchanged; so the mix of `currentcolor` at `p30` and `white` at
`p70` resolved against `black` is the mix of `black` at `p30` and `white` at `p70`. -/
theorem legacy_resolveColor_colorMix (mix : CSSResolvedColorMix A M P → A) :
    (∀ (m : M) (a b : StyleColor A M P) (p1 p2 : Option P) (cur : A),
      (StyleColor.extended (.colorMix ⟨m, ⟨a, p1⟩, ⟨b, p2⟩⟩)).resolveColor mix cur
        = mix ⟨m, ⟨a.resolveColor mix cur, p1⟩, ⟨b.resolveColor mix cur, p2⟩⟩) ∧
    (∀ (oklab : M) (black white : A) (p30 p70 : P),
      (StyleColor.extended (.colorMix ⟨oklab, ⟨StyleColor.currentColor, some p30⟩,
          ⟨StyleColor.ofColor white, some p70⟩⟩)).resolveColor mix black
        = mix ⟨oklab, ⟨black, some p30⟩, ⟨white, some p70⟩⟩) :=
  ⟨fun _ _ _ _ _ _ => rfl, fun _ _ _ _ _ => rfl⟩

/-! ## Dependency on the current colour -/

/-- The legacy `containsCurrentColor` holds exactly on the trees with a `currentcolor` leaf. -/
theorem legacy_containsCurrentColor_iff_mem_leaves :
    ∀ v : StyleColor A M P, v.containsCurrentColor = true ↔ StyleColor.Leaf.currentColor ∈ v.leaves
  | .absolute _ => by simp [StyleColor.containsCurrentColor, StyleColor.leaves]
  | .extended .currentColor => by simp [StyleColor.containsCurrentColor, StyleColor.leaves]
  | .extended (.colorMix ⟨_, ⟨a, _⟩, ⟨b, _⟩⟩) => by
      simp only [StyleColor.containsCurrentColor, StyleColor.leaves, Bool.or_eq_true,
        List.mem_append, legacy_containsCurrentColor_iff_mem_leaves a,
        legacy_containsCurrentColor_iff_mem_leaves b]

/-- A legacy tree without `currentcolor` resolves the same against any two current colours. -/
theorem legacy_resolveColor_congr (mix : CSSResolvedColorMix A M P → A) :
    ∀ (v : StyleColor A M P) (c1 c2 : A), v.containsCurrentColor = false →
      v.resolveColor mix c1 = v.resolveColor mix c2
  | .absolute _, _, _, _ => rfl
  | .extended .currentColor, _, _, h => by simp [StyleColor.containsCurrentColor] at h
  | .extended (.colorMix ⟨_, ⟨a, _⟩, ⟨b, _⟩⟩), c1, c2, h => by
      simp only [StyleColor.containsCurrentColor, Bool.or_eq_false_iff] at h
      simp only [StyleColor.resolveColor, legacy_resolveColor_congr mix a c1 c2 h.1,
        legacy_resolveColor_congr mix b c1 c2 h.2]

/-- C4: on every colour tree (absolute leaf, `currentcolor` leaf, colour-mix of two
sub-trees) `containsCurrentColor` is true exactly when some leaf is `currentcolor`; it is
false on every absolute colour and true on `currentcolor`, for the legacy `StyleColor` and for
`Style::Color` alike. -/
theorem containsCurrentColor_iff_currentColor_leaf :
    (∀ v : StyleColor A M P,
      v.containsCurrentColor = true ↔ ∃ l ∈ v.leaves, l = StyleColor.Leaf.currentColor) ∧
    (∀ c : A, (StyleColor.ofColor c : StyleColor A M P).containsCurrentColor = false) ∧
    (StyleColor.currentColor : StyleColor A M P).containsCurrentColor = true ∧
    (∀ (nodeContainsCurrentColor : Style.ExtendedStyleColor K → Bool) (heap : Style.Heap K),
      (∀ c : A, (Style.Color.ofColor (Color.plain c)).containsCurrentColor
          nodeContainsCurrentColor heap = false) ∧
      (Style.Color.ofCurrentColor : Style.Color A).containsCurrentColor
          nodeContainsCurrentColor heap = true ∧
      (Style.Color.currentColor : Style.Color A).containsCurrentColor
          nodeContainsCurrentColor heap = true) := by
  refine ⟨fun v => ?_, fun _ => rfl, rfl, fun _ _ => ⟨fun _ => rfl, rfl, rfl⟩⟩
  rw [legacy_containsCurrentColor_iff_mem_leaves]
  constructor
  · intro h
    exact ⟨_, h, rfl⟩
  · rintro ⟨l, hl, rfl⟩
    exact hl

/-- C5: a value that does not contain `currentcolor` resolves to the same colour against any
two current colours: on every legacy colour tree, and on every `Style::Color` provided the
node's own `resolveColor` and `containsCurrentColor` are related in the same way. -/
theorem resolveColor_independent_of_currentColor :
    (∀ (mix : CSSResolvedColorMix A M P → A) (v : StyleColor A M P) (c1 c2 : A),
      v.containsCurrentColor = false → v.resolveColor mix c1 = v.resolveColor mix c2) ∧
    (∀ (nodeResolveColor : Style.ExtendedStyleColor K → Color A → Color A)
      (nodeContainsCurrentColor : Style.ExtendedStyleColor K → Bool) (heap : Style.Heap K),
      (∀ node c1 c2, nodeContainsCurrentColor node = false →
        nodeResolveColor node c1 = nodeResolveColor node c2) →
      ∀ (v : Style.Color A) (c1 c2 : Color A),
        v.containsCurrentColor nodeContainsCurrentColor heap = false →
        v.resolveColor nodeResolveColor heap c1 = v.resolveColor nodeResolveColor heap c2) := by
  refine ⟨legacy_resolveColor_congr, ?_⟩
  intro nodeResolveColor nodeContainsCurrentColor heap hnode v c1 c2 h
  unfold Style.Color.containsCurrentColor at h
  unfold Style.Color.resolveColor
  by_cases hcur : v.isCurrentColor = true
  · simp [hcur] at h
  · by_cases hres : v.isResolvedColor = true
    · simp [hres]
    · simp only [hcur, hres, if_false, Bool.false_eq_true] at h ⊢
      exact hnode _ c1 c2 h

/-- Witness of C5: the mix of two absolute colours resolves alike against 5 and against 9,
and so does a node reference whose node does not depend on the current colour. -/
theorem resolveColor_independent_of_currentColor_witness :
    ((StyleColor.extended (.colorMix ⟨0, ⟨.absolute 1, some 30⟩, ⟨.absolute 2, none⟩⟩) :
        StyleColor Nat Nat Nat).containsCurrentColor = false ∧
      (StyleColor.extended (.colorMix ⟨0, ⟨.absolute 1, some 30⟩, ⟨.absolute 2, none⟩⟩) :
        StyleColor Nat Nat Nat).resolveColor
          (fun r => 10 * r.mixComponents1.color + r.mixComponents2.color) 5
      = (StyleColor.extended (.colorMix ⟨0, ⟨.absolute 1, some 30⟩, ⟨.absolute 2, none⟩⟩) :
        StyleColor Nat Nat Nat).resolveColor
          (fun r => 10 * r.mixComponents1.color + r.mixComponents2.color) 9) ∧
    ((Style.Color.ofExtendedStyleColor 3 : Style.Color Nat).containsCurrentColor
        (fun (_ : Style.ExtendedStyleColor Nat) => false) (fun _ => ⟨1, 0⟩) = false ∧
      (Style.Color.ofExtendedStyleColor 3 : Style.Color Nat).resolveColor
        (fun (node : Style.ExtendedStyleColor Nat) _ => Color.plain node.m_color)
        (fun _ => ⟨1, 0⟩) (Color.plain 5)
      = (Style.Color.ofExtendedStyleColor 3 : Style.Color Nat).resolveColor
        (fun (node : Style.ExtendedStyleColor Nat) _ => Color.plain node.m_color)
        (fun _ => ⟨1, 0⟩) (Color.plain 9)) :=
  ⟨⟨by decide, (@resolveColor_independent_of_currentColor Nat Nat Nat Nat).1 _ _ 5 9
      (by decide)⟩,
   ⟨by decide, (@resolveColor_independent_of_currentColor Nat Nat Nat Nat).2
      (fun (node : Style.ExtendedStyleColor Nat) _ => Color.plain node.m_color)
      (fun _ => false) (fun _ => ⟨1, 0⟩) (fun _ _ _ _ => rfl) _ (Color.plain 5) (Color.plain 9)
      (by decide)⟩⟩

/-! ## Equality -/

/-- On two distinct objects `Color::operator==` is decided by the two packed words alone: two
resolved words compare by `WebCore::Color::operator==`, two `currentcolor` words are equal,
two node references compare the stored kinds of their nodes, and all else is unequal. -/
theorem newColor_eq_of_ne (colorEq : Color A → Color A → Bool) (kindEq : K → K → Bool)
    (heap : Style.Heap K) (objects : Nat → Style.Color A) (this other : Nat)
    (hne : this ≠ other) :
    Style.Color.eq colorEq kindEq heap objects this other =
      match (objects this).m_color, (objects other).m_color with
      | .currentColor, .currentColor => true
      | .currentColor, _ => false
      | _, .currentColor => false
      | .extendedStyleColor p, .extendedStyleColor q => kindEq (heap p).m_color (heap q).m_color
      | .extendedStyleColor _, _ => false
      | _, .extendedStyleColor _ => false
      | a, b => colorEq a b := by
  unfold Style.Color.eq
  rw [if_neg hne]
  rcases hthis : objects this with ⟨_ | _ | _ | _⟩ <;>
    rcases hother : objects other with ⟨_ | _ | _ | _⟩ <;>
    simp [Style.Color.isResolvedColor, Style.Color.isCurrentColor,
      Style.Color.isExtendedStyleColor, Color.isCurrentColor, Color.isExtendedStyleColor,
      Style.Color.resolvedColor, Style.Color.extendedStyleColor, Style.ExtendedStyleColor.eq,
      Color.decodedOutOfLinePointer]

/-- C6: `Style::Color::operator==` on two values of different kinds (the three predicates
`isResolvedColor`, `isCurrentColor`, `isExtendedStyleColor` do not all agree on them) is
false. -/
theorem newColor_eq_false_of_kinds_differ (colorEq : Color A → Color A → Bool)
    (kindEq : K → K → Bool) (heap : Style.Heap K) (objects : Nat → Style.Color A)
    (this other : Nat)
    (hkind : (objects this).isResolvedColor ≠ (objects other).isResolvedColor ∨
      (objects this).isCurrentColor ≠ (objects other).isCurrentColor ∨
      (objects this).isExtendedStyleColor ≠ (objects other).isExtendedStyleColor) :
    Style.Color.eq colorEq kindEq heap objects this other = false := by
  have hne : this ≠ other := by
    rintro rfl
    simp at hkind
  rw [newColor_eq_of_ne colorEq kindEq heap objects this other hne]
  revert hkind
  rcases hthis : objects this with ⟨_ | _ | _ | _⟩ <;>
    rcases hother : objects other with ⟨_ | _ | _ | _⟩ <;>
    simp [Style.Color.isResolvedColor, Style.Color.isCurrentColor,
      Style.Color.isExtendedStyleColor, Color.isCurrentColor, Color.isExtendedStyleColor]

/-- Witness of C6: an absolute value against `currentcolor`. -/
theorem newColor_eq_false_of_kinds_differ_witness :
    Style.Color.eq (fun a b => decide (a = b)) (fun (a b : Nat) => decide (a = b))
      (fun _ => ⟨1, 0⟩)
      (fun n => if n = 0 then Style.Color.ofColor (Color.plain 7) else Style.Color.currentColor)
      0 1 = false :=
  newColor_eq_false_of_kinds_differ (fun a b => decide (a = b))
    (fun (a b : Nat) => decide (a = b)) (fun _ => ⟨1, 0⟩)
    (fun n => if n = 0 then Style.Color.ofColor (Color.plain 7) else Style.Color.currentColor)
    0 1 (Or.inl (by decide))

/-- C7: on two values of the same kind, which are two distinct objects or else compared by
reflexive leaf equalities, `Style::Color::operator==` is the `WebCore::Color` equality of the
two resolved colours when both are resolved, and `ExtendedStyleColor::operator==` of the two
nodes, the equality of their stored kinds whatever their addresses, when both are extended. -/
theorem newColor_eq_same_kind (colorEq : Color A → Color A → Bool) (kindEq : K → K → Bool)
    (heap : Style.Heap K) (objects : Nat → Style.Color A) (this other : Nat)
    (hobjects : this ≠ other ∨ ((∀ c, colorEq c c = true) ∧ ∀ k, kindEq k k = true)) :
    ((objects this).isResolvedColor = true → (objects other).isResolvedColor = true →
      Style.Color.eq colorEq kindEq heap objects this other
        = colorEq (objects this).resolvedColor (objects other).resolvedColor) ∧
    ((objects this).isExtendedStyleColor = true → (objects other).isExtendedStyleColor = true →
      Style.Color.eq colorEq kindEq heap objects this other
        = Style.ExtendedStyleColor.eq kindEq ((objects this).extendedStyleColor heap)
            ((objects other).extendedStyleColor heap)) ∧
    (∀ p q, (objects this).m_color = .extendedStyleColor p →
      (objects other).m_color = .extendedStyleColor q →
      Style.Color.eq colorEq kindEq heap objects this other
        = kindEq (heap p).m_color (heap q).m_color) := by
  by_cases hne : this = other
  · subst hne
    rcases hobjects with h | ⟨hc, hk⟩
    · exact absurd rfl h
    · refine ⟨fun _ _ => ?_, fun _ _ => ?_, fun p q hp hq => ?_⟩
      · simp [Style.Color.eq, hc]
      · simp [Style.Color.eq, Style.ExtendedStyleColor.eq, hk]
      · rw [hp] at hq
        cases hq
        simp [Style.Color.eq, hk]
  · rw [newColor_eq_of_ne colorEq kindEq heap objects this other hne]
    rcases hthis : objects this with ⟨_ | _ | _ | _⟩ <;>
      rcases hother : objects other with ⟨_ | _ | _ | _⟩ <;>
      simp [Style.Color.isResolvedColor, Style.Color.isCurrentColor,
        Style.Color.isExtendedStyleColor, Color.isCurrentColor, Color.isExtendedStyleColor,
        Style.Color.resolvedColor, Style.Color.extendedStyleColor, Style.ExtendedStyleColor.eq,
        Color.decodedOutOfLinePointer]

/-- Witness of C7: two distinct objects, compared where both hold absolute colours and where
both hold references to nodes at different addresses. -/
theorem newColor_eq_same_kind_witness :
    Style.Color.eq (fun a b => decide (a = b)) (fun (a b : Nat) => decide (a = b))
        (fun _ => ⟨1, 0⟩)
        (fun n => if n = 0 then Style.Color.ofColor (Color.plain 7)
          else Style.Color.ofColor (Color.plain 8)) 0 1
      = decide (Color.plain 7 = Color.plain 8) ∧
    Style.Color.eq (fun (a b : Color Nat) => decide (a = b)) (fun (a b : Nat) => decide (a = b))
        (fun _ => ⟨1, 0⟩)
        (fun n => if n = 0 then Style.Color.ofExtendedStyleColor 4
          else Style.Color.ofExtendedStyleColor 5) 0 1
      = decide ((0 : Nat) = 0) :=
  ⟨(newColor_eq_same_kind (fun a b => decide (a = b)) (fun (a b : Nat) => decide (a = b))
      (fun _ => ⟨1, 0⟩)
      (fun n => if n = 0 then Style.Color.ofColor (Color.plain 7)
        else Style.Color.ofColor (Color.plain 8)) 0 1 (Or.inl (by decide))).1 rfl rfl,
   (newColor_eq_same_kind (fun (a b : Color Nat) => decide (a = b))
      (fun (a b : Nat) => decide (a = b)) (fun _ => ⟨1, 0⟩)
      (fun n => if n = 0 then Style.Color.ofExtendedStyleColor 4
        else Style.Color.ofExtendedStyleColor 5) 0 1 (Or.inl (by decide))).2.2 4 5 rfl rfl⟩

/-- C9: when `WebCore::Color::operator==` and the equality of the node kinds are
equivalence relations, `Style::Color::operator==` is one as well: objects holding the same
value are equal (a value equals itself), equality is symmetric, and it is transitive. -/
theorem newColor_eq_equivalence (colorEq : Color A → Color A → Bool) (kindEq : K → K → Bool)
    (heap : Style.Heap K) (objects : Nat → Style.Color A)
    (hcolor_refl : ∀ a, colorEq a a = true)
    (hcolor_symm : ∀ a b, colorEq a b = true → colorEq b a = true)
    (hcolor_trans : ∀ a b c, colorEq a b = true → colorEq b c = true → colorEq a c = true)
    (hkind_refl : ∀ a, kindEq a a = true)
    (hkind_symm : ∀ a b, kindEq a b = true → kindEq b a = true)
    (hkind_trans : ∀ a b c, kindEq a b = true → kindEq b c = true → kindEq a c = true) :
    (∀ a b, objects a = objects b → Style.Color.eq colorEq kindEq heap objects a b = true) ∧
    (∀ a b, Style.Color.eq colorEq kindEq heap objects a b = true →
      Style.Color.eq colorEq kindEq heap objects b a = true) ∧
    (∀ a b c, Style.Color.eq colorEq kindEq heap objects a b = true →
      Style.Color.eq colorEq kindEq heap objects b c = true →
      Style.Color.eq colorEq kindEq heap objects a c = true) := by
  have hrefl : ∀ a b, objects a = objects b →
      Style.Color.eq colorEq kindEq heap objects a b = true := by
    intro a b hab
    by_cases hne : a = b
    · simp [Style.Color.eq, hne]
    · rw [newColor_eq_of_ne colorEq kindEq heap objects a b hne, hab]
      rcases objects b with ⟨_ | _ | _ | _⟩ <;> simp [hcolor_refl, hkind_refl]
  have hsymm : ∀ a b, Style.Color.eq colorEq kindEq heap objects a b = true →
      Style.Color.eq colorEq kindEq heap objects b a = true := by
    intro a b
    by_cases hne : a = b
    · simp [Style.Color.eq, hne]
    · rw [newColor_eq_of_ne colorEq kindEq heap objects a b hne,
        newColor_eq_of_ne colorEq kindEq heap objects b a (Ne.symm hne)]
      rcases objects a with ⟨_ | _ | _ | _⟩ <;> rcases objects b with ⟨_ | _ | _ | _⟩ <;>
        simp <;> first | exact hcolor_symm _ _ | exact hkind_symm _ _
  refine ⟨hrefl, hsymm, ?_⟩
  intro a b c hab hbc
  by_cases h1 : a = b
  · subst h1
    exact hbc
  by_cases h2 : b = c
  · subst h2
    exact hab
  by_cases h3 : a = c
  · simp [Style.Color.eq, h3]
  rw [newColor_eq_of_ne colorEq kindEq heap objects a b h1] at hab
  rw [newColor_eq_of_ne colorEq kindEq heap objects b c h2] at hbc
  rw [newColor_eq_of_ne colorEq kindEq heap objects a c h3]
  revert hab hbc
  rcases objects a with ⟨_ | _ | _ | _⟩ <;> rcases objects b with ⟨_ | _ | _ | _⟩ <;>
    rcases objects c with ⟨_ | _ | _ | _⟩ <;>
    simp <;> first | exact hcolor_trans _ _ _ | exact hkind_trans _ _ _

/-- Witness of C9: equality decided by the equality of the colour words and of the kinds, on
a memory holding an absolute colour, `currentcolor` and node references. -/
theorem newColor_eq_equivalence_witness :
    (∀ a b,
      (fun n => if n = 0 then Style.Color.ofColor (Color.plain 7)
        else if n = 1 then Style.Color.currentColor
        else Style.Color.ofExtendedStyleColor n : Nat → Style.Color Nat) a
      = (fun n => if n = 0 then Style.Color.ofColor (Color.plain 7)
        else if n = 1 then Style.Color.currentColor
        else Style.Color.ofExtendedStyleColor n : Nat → Style.Color Nat) b →
      Style.Color.eq (fun a b => decide (a = b)) (fun (a b : Nat) => decide (a = b))
        (fun p => ⟨1, p % 2⟩)
        (fun n => if n = 0 then Style.Color.ofColor (Color.plain 7)
          else if n = 1 then Style.Color.currentColor
          else Style.Color.ofExtendedStyleColor n) a b = true) ∧
    Style.Color.eq (fun (a b : Color Nat) => decide (a = b)) (fun (a b : Nat) => decide (a = b))
        (fun p => ⟨1, p % 2⟩)
        (fun n => if n = 0 then Style.Color.ofColor (Color.plain 7)
          else if n = 1 then Style.Color.currentColor
          else Style.Color.ofExtendedStyleColor n) 2 4 = true :=
  ⟨(newColor_eq_equivalence (fun a b => decide (a = b)) (fun (a b : Nat) => decide (a = b))
      (fun p => ⟨1, p % 2⟩)
      (fun n => if n = 0 then Style.Color.ofColor (Color.plain 7)
        else if n = 1 then Style.Color.currentColor
        else Style.Color.ofExtendedStyleColor n)
      (by simp) (by simp [eq_comm]) (by intro a b c; simp; intro h1 h2; exact h1.trans h2)
      (by simp) (by simp [eq_comm]) (by intro a b c; simp; intro h1 h2; exact h1.trans h2)).1,
   by decide⟩

end WebCore

/-! ## Ownership of the nodes -/

namespace WebCore

variable {A K : Type}

theorem holdsNode_destroy (heap : Style.Heap K) (c : Style.Color A) (node : Nat) :
    (Style.Color.destroy heap c).2.holdsNode node = false := by
  rcases c with ⟨_ | _ | _ | q⟩ <;> rfl

/-- C11: copy-constructing from a value that holds the node `p` raises the count of `p` by
exactly one, leaves every other node and the stored kind of `p` as they were, and yields a
value with the same packed word, hence holding the same node; copying a value that is not
extended leaves the whole heap as it was. In a memory, the constructor leaves the source
object unchanged and makes the new object equal to it. -/
theorem copy_refCount_frame (heap : Style.Heap K) (other : Style.Color A) :
    (∀ p, other.m_color = .extendedStyleColor p →
      ((Style.Color.copy heap other).1 p).refCount = (heap p).refCount + 1 ∧
      ((Style.Color.copy heap other).1 p).m_color = (heap p).m_color ∧
      (∀ q, q ≠ p → (Style.Color.copy heap other).1 q = heap q) ∧
      (Style.Color.copy heap other).2.m_color = .extendedStyleColor p) ∧
    (other.isExtendedStyleColor = false →
      (Style.Color.copy heap other).1 = heap ∧ (Style.Color.copy heap other).2 = other) ∧
    (∀ (s t : Style.Memory A K) (this source : Nat),
      s.step (.copyConstruct this source) = some t →
      t.objects source = s.objects source ∧ t.objects this = s.objects source ∧
      (∀ a, a ≠ this → t.objects a = s.objects a)) := by
  refine ⟨fun p hp => ?_, fun h => ?_, fun s t this source h => ?_⟩
  · have hcopy : (Style.Color.copy heap other).1 = Function.update heap p (heap p).ref := by
      simp [Style.Color.copy, Style.Color.isExtendedStyleColor, Color.isExtendedStyleColor,
        Color.decodedOutOfLinePointer, hp]
    refine ⟨?_, ?_, fun q hq => ?_, hp⟩
    · rw [hcopy]
      simp [Style.ExtendedStyleColor.ref]
    · rw [hcopy]
      simp [Style.ExtendedStyleColor.ref]
    · rw [hcopy, Function.update_noteq hq]
  · exact ⟨by simp [Style.Color.copy, h], rfl⟩
  · simp only [Style.Memory.step] at h
    split_ifs at h with hc
    cases h
    have hne : source ≠ this := fun e => hc.1 (e ▸ hc.2)
    refine ⟨?_, ?_, fun a ha => ?_⟩
    · simp [Function.update_noteq hne]
    · simp [Style.Color.copy]
    · simp [Function.update_noteq ha]

/-- Witness of C11: the copy of a value holding node 7, whose count was 1. -/
theorem copy_refCount_frame_witness :
    ((Style.Color.copy (fun p => (⟨1, p⟩ : Style.ExtendedStyleColor Nat))
        (Style.Color.ofExtendedStyleColor 7 : Style.Color Nat)).1 7).refCount = 1 + 1 ∧
    (Style.Color.copy (fun p => (⟨1, p⟩ : Style.ExtendedStyleColor Nat))
        (Style.Color.ofExtendedStyleColor 7 : Style.Color Nat)).2.m_color
      = .extendedStyleColor 7 ∧
    (Style.Color.copy (fun p => (⟨1, p⟩ : Style.ExtendedStyleColor Nat))
        (Style.Color.currentColor : Style.Color Nat)).1
      = (fun p => (⟨1, p⟩ : Style.ExtendedStyleColor Nat)) :=
  ⟨((copy_refCount_frame (fun p => (⟨1, p⟩ : Style.ExtendedStyleColor Nat))
      (Style.Color.ofExtendedStyleColor 7 : Style.Color Nat)).1 7 rfl).1,
   ((copy_refCount_frame (fun p => (⟨1, p⟩ : Style.ExtendedStyleColor Nat))
      (Style.Color.ofExtendedStyleColor 7 : Style.Color Nat)).1 7 rfl).2.2.2,
   ((copy_refCount_frame (fun p => (⟨1, p⟩ : Style.ExtendedStyleColor Nat))
      (Style.Color.currentColor : Style.Color Nat)).2.1 rfl).1⟩

/-- C14, as stated, fails: the value left behind by a move out of a composite value is not
extended and not `currentcolor`, but `isResolvedColor()` is true for it, not false. -/
theorem moved_from_isResolvedColor :
    Style.Color.isResolvedColor
        (Style.Color.moveConstruct (Style.Color.ofExtendedStyleColor 7 : Style.Color Nat)).2
      = true ∧
    ¬ (Style.Color.isExtendedStyleColor
          (Style.Color.moveConstruct (Style.Color.ofExtendedStyleColor 7 : Style.Color Nat)).2
        = false ∧
      Style.Color.isCurrentColor
          (Style.Color.moveConstruct (Style.Color.ofExtendedStyleColor 7 : Style.Color Nat)).2
        = false ∧
      Style.Color.isResolvedColor
          (Style.Color.moveConstruct (Style.Color.ofExtendedStyleColor 7 : Style.Color Nat)).2
        = false) := by
  decide

/-- C14, amended: after a composite value has been moved from, by move construction or by
move assignment into another object, the source holds the invalid word of
`Color::invalidColor()`: it is not extended, so that its destructor leaves the heap as it is,
and it is not `currentcolor`; `isResolvedColor()`, which only says that the other two are
false, is true for it. -/
theorem moved_from_is_invalid (heap : Style.Heap K) (objects : Nat → Style.Color A)
    (this other : Nat) (hother : (objects other).isExtendedStyleColor = true) :
    ((Style.Color.moveConstruct (objects other)).2 = Style.Color.invalidColor ∧
      (this ≠ other →
        (Style.Color.moveAssign heap objects this other).2 other = Style.Color.invalidColor)) ∧
    (Style.Color.invalidColor : Style.Color A).isExtendedStyleColor = false ∧
    (Style.Color.invalidColor : Style.Color A).isCurrentColor = false ∧
    (Style.Color.invalidColor : Style.Color A).isResolvedColor = true ∧
    (∀ h : Style.Heap K, Style.Color.destroy h (Style.Color.invalidColor : Style.Color A)
      = (h, Style.Color.invalidColor)) := by
  refine ⟨⟨?_, fun hne => ?_⟩, rfl, rfl, rfl, fun _ => rfl⟩
  · simp [Style.Color.moveConstruct, hother, Style.Color.invalidColor, Style.Color.ofColor]
  · simp [Style.Color.moveAssign, hne, Style.Color.invalidColor, Style.Color.ofColor]

/-- Witness of C14: object 1 holding node 7 is moved from, into a new object and into the
object 0. -/
theorem moved_from_is_invalid_witness :
    (Style.Color.moveConstruct
        ((fun a => if a = 1 then Style.Color.ofExtendedStyleColor 7
          else Style.Color.currentColor : Nat → Style.Color Nat) 1)).2
      = Style.Color.invalidColor ∧
    (Style.Color.moveAssign (fun p => (⟨2, p⟩ : Style.ExtendedStyleColor Nat))
        (fun a => if a = 1 then Style.Color.ofExtendedStyleColor 7
          else Style.Color.currentColor : Nat → Style.Color Nat) 0 1).2 1
      = Style.Color.invalidColor :=
  ⟨(moved_from_is_invalid (fun p => (⟨2, p⟩ : Style.ExtendedStyleColor Nat))
      (fun a => if a = 1 then Style.Color.ofExtendedStyleColor 7
        else Style.Color.currentColor : Nat → Style.Color Nat) 0 1 rfl).1.1,
   (moved_from_is_invalid (fun p => (⟨2, p⟩ : Style.ExtendedStyleColor Nat))
      (fun a => if a = 1 then Style.Color.ofExtendedStyleColor 7
        else Style.Color.currentColor : Nat → Style.Color Nat) 0 1 rfl).1.2 (by decide)⟩

/-- Of the three predicates of a value exactly one holds. -/
theorem exactlyOne_resolved_current_extended (c : Style.Color A) :
    (c.isResolvedColor = true ∧ c.isCurrentColor = false ∧ c.isExtendedStyleColor = false) ∨
    (c.isResolvedColor = false ∧ c.isCurrentColor = true ∧ c.isExtendedStyleColor = false) ∨
    (c.isResolvedColor = false ∧ c.isCurrentColor = false ∧ c.isExtendedStyleColor = true) := by
  rcases c with ⟨_ | _ | _ | q⟩ <;>
    simp [Style.Color.isResolvedColor, Style.Color.isCurrentColor,
      Style.Color.isExtendedStyleColor, Color.isCurrentColor, Color.isExtendedStyleColor]

/-- C15, as stated, fails: `store` of a `ResolvedColor` whose colour carries the
`currentcolor` flag, the colour `Color::currentColor()` builds, gives a value for which
`isCurrentColor()` holds and `isResolvedColor()` does not, which is not the predicate of the
stored alternative. -/
theorem store_resolvedColor_of_currentColor_word :
    (Style.Color.store (⟨.invalid⟩ : Style.Color Nat)
        (.resolvedColor (Color.invalid).setCurrentColor)).isResolvedColor = false ∧
    (Style.Color.store (⟨.invalid⟩ : Style.Color Nat)
        (.resolvedColor (Color.invalid).setCurrentColor)).isCurrentColor = true := by
  decide

/-- C15, amended: for every value, and so for every value a constructor or `store` produces,
exactly one of `isResolvedColor()`, `isCurrentColor()`, `isExtendedStyleColor()` holds. After
`store(kind)` it is `isCurrentColor()` for the `CurrentColor` alternative,
`isExtendedStyleColor()` for the `Ref<ExtendedStyleColor>` alternative, and
`isResolvedColor()` for a `ResolvedColor` whose colour carries neither the `currentcolor` nor
the extended flag; a `ResolvedColor` whose colour carries a flag yields the state of that
flag. -/
theorem store_exactly_one_variant (self : Style.Color A) (kind : Style.ColorKind A) :
    ((self.store kind).isResolvedColor = true ∧ (self.store kind).isCurrentColor = false ∧
        (self.store kind).isExtendedStyleColor = false ∨
      (self.store kind).isResolvedColor = false ∧ (self.store kind).isCurrentColor = true ∧
        (self.store kind).isExtendedStyleColor = false ∨
      (self.store kind).isResolvedColor = false ∧ (self.store kind).isCurrentColor = false ∧
        (self.store kind).isExtendedStyleColor = true) ∧
    (kind = .currentColor → (self.store kind).isCurrentColor = true) ∧
    (∀ node, kind = .extendedStyleColor node →
      (self.store kind).isExtendedStyleColor = true ∧
      (self.store kind).m_color.decodedOutOfLinePointer = node) ∧
    (∀ color, kind = .resolvedColor color →
      (self.store kind).isCurrentColor = color.isCurrentColor ∧
      (self.store kind).isExtendedStyleColor = color.isExtendedStyleColor ∧
      (color.isCurrentColor = false → color.isExtendedStyleColor = false →
        (self.store kind).isResolvedColor = true ∧ (self.store kind).resolvedColor = color)) ∧
    (Style.Color.default : Style.Color A).isCurrentColor = true ∧
    (Style.Color.ofCurrentColor : Style.Color A).isCurrentColor = true ∧
    (∀ node, (Style.Color.ofExtendedStyleColor node : Style.Color A).isExtendedStyleColor
      = true) ∧
    (∀ color : Color A, color.isCurrentColor = false → color.isExtendedStyleColor = false →
      (Style.Color.ofColor color).isResolvedColor = true ∧
      (Style.Color.ofResolvedColor color).isResolvedColor = true) := by
  refine ⟨exactlyOne_resolved_current_extended _, ?_, ?_, ?_, rfl, rfl, fun _ => rfl, ?_⟩
  · rintro rfl
    rfl
  · rintro node rfl
    exact ⟨rfl, rfl⟩
  · rintro color rfl
    refine ⟨rfl, rfl, fun h1 h2 => ⟨?_, rfl⟩⟩
    simp [Style.Color.store, Style.Color.isResolvedColor, Style.Color.isCurrentColor,
      Style.Color.isExtendedStyleColor, h1, h2]
  · intro color h1 h2
    simp [Style.Color.ofColor, Style.Color.ofResolvedColor, Style.Color.store,
      Style.Color.isResolvedColor, Style.Color.isCurrentColor,
      Style.Color.isExtendedStyleColor, h1, h2]

/-- Witness of C15: `store` of each of the three alternatives on a fresh value. -/
theorem store_exactly_one_variant_witness :
    (Style.Color.store (⟨.invalid⟩ : Style.Color Nat) .currentColor).isCurrentColor = true ∧
    (Style.Color.store (⟨.invalid⟩ : Style.Color Nat)
        (.extendedStyleColor 7)).isExtendedStyleColor = true ∧
    (Style.Color.store (⟨.invalid⟩ : Style.Color Nat)
        (.resolvedColor (.plain 3))).isResolvedColor = true :=
  ⟨(store_exactly_one_variant (⟨.invalid⟩ : Style.Color Nat) .currentColor).2.1 rfl,
   ((store_exactly_one_variant (⟨.invalid⟩ : Style.Color Nat)
      (.extendedStyleColor 7)).2.2.1 7 rfl).1,
   (((store_exactly_one_variant (⟨.invalid⟩ : Style.Color Nat)
      (.resolvedColor (.plain 3))).2.2.2.1 (.plain 3) rfl).2.2 rfl rfl).1⟩

variable {M P : Type}

/-! ## Serialization and debug dump: theorems -/

theorem appendPercentage_eq (numberText : P → String) (builder : String) (p : Option P) :
    StyleColor.appendPercentage numberText builder p
      = builder ++ StyleColor.percentageSuffix numberText p := by
  cases p <;>
    simp [StyleColor.appendPercentage, StyleColor.percentageSuffix, String.append_assoc]

/-- The builder form of the legacy serializer appends the text of the `String` form. -/
theorem legacy_serializationForCSSInto_eq (colorText : A → String) (methodText : M → String)
    (numberText : P → String) : ∀ (v : StyleColor A M P) (builder : String),
    v.serializationForCSSInto colorText methodText numberText builder
      = builder ++ v.serializationForCSS colorText methodText numberText
  | .absolute _, builder => by
      simp [StyleColor.serializationForCSS, StyleColor.serializationForCSSInto]
  | .extended .currentColor, builder => by
      simp [StyleColor.serializationForCSS, StyleColor.serializationForCSSInto]
  | .extended (.colorMix ⟨m, ⟨a, p1⟩, ⟨b, p2⟩⟩), builder => by
      rw [show (StyleColor.extended (.colorMix ⟨m, ⟨a, p1⟩, ⟨b, p2⟩⟩)).serializationForCSS
          colorText methodText numberText
        = (StyleColor.extended (.colorMix ⟨m, ⟨a, p1⟩, ⟨b, p2⟩⟩)).serializationForCSSInto
          colorText methodText numberText "" from rfl]
      simp only [StyleColor.serializationForCSSInto, appendPercentage_eq,
        legacy_serializationForCSSInto_eq colorText methodText numberText a,
        legacy_serializationForCSSInto_eq colorText methodText numberText b,
        String.append_assoc, String.empty_append]

/-- C16: the CSS serialization of a colour-mix is `color-mix(in `, the serialization of the
method, `, `, the first component, `, `, the second component and `)`, a component being the
serialization of its colour followed by a blank, the percentage and `%` when the percentage
is present and by nothing when it is absent; the builder form appends that same text. So the
mix in `oklab` of `currentcolor` at 30 and of a white serialized as `rgb(255, 255, 255)` at
70 serializes to `color-mix(in oklab, currentcolor 30%, rgb(255, 255, 255) 70%)`. -/
theorem legacy_serializationForCSS_colorMix :
    (∀ (colorText : A → String) (methodText : M → String) (numberText : P → String) (m : M)
      (a b : StyleColor A M P) (p1 p2 : Option P),
      (StyleColor.extended (.colorMix ⟨m, ⟨a, p1⟩, ⟨b, p2⟩⟩)).serializationForCSS
          colorText methodText numberText
        = "color-mix(in " ++ methodText m ++ ", "
          ++ (a.serializationForCSS colorText methodText numberText
              ++ StyleColor.percentageSuffix numberText p1) ++ ", "
          ++ (b.serializationForCSS colorText methodText numberText
              ++ StyleColor.percentageSuffix numberText p2) ++ ")" ∧
      ∀ builder : String,
        (StyleColor.extended (.colorMix ⟨m, ⟨a, p1⟩, ⟨b, p2⟩⟩)).serializationForCSSInto
            colorText methodText numberText builder
          = builder ++ ("color-mix(in " ++ methodText m ++ ", "
            ++ (a.serializationForCSS colorText methodText numberText
                ++ StyleColor.percentageSuffix numberText p1) ++ ", "
            ++ (b.serializationForCSS colorText methodText numberText
                ++ StyleColor.percentageSuffix numberText p2) ++ ")")) ∧
    (StyleColor.extended (.colorMix ⟨"oklab", ⟨StyleColor.currentColor, some 30⟩,
        ⟨StyleColor.ofColor (255, 255, 255), some 70⟩⟩) :
        StyleColor (Nat × Nat × Nat) String Nat).serializationForCSS
      (fun c => "rgb(" ++ toString c.1 ++ ", " ++ toString c.2.1 ++ ", " ++ toString c.2.2 ++ ")")
      (fun m => m) (fun n => toString n)
      = "color-mix(in oklab, currentcolor 30%, rgb(255, 255, 255) 70%)" := by
  have key : ∀ (colorText : A → String) (methodText : M → String) (numberText : P → String)
      (m : M) (a b : StyleColor A M P) (p1 p2 : Option P),
      (StyleColor.extended (.colorMix ⟨m, ⟨a, p1⟩, ⟨b, p2⟩⟩)).serializationForCSS
          colorText methodText numberText
        = "color-mix(in " ++ methodText m ++ ", "
          ++ (a.serializationForCSS colorText methodText numberText
              ++ StyleColor.percentageSuffix numberText p1) ++ ", "
          ++ (b.serializationForCSS colorText methodText numberText
              ++ StyleColor.percentageSuffix numberText p2) ++ ")" := by
    intro colorText methodText numberText m a b p1 p2
    rw [show (StyleColor.extended (.colorMix ⟨m, ⟨a, p1⟩, ⟨b, p2⟩⟩)).serializationForCSS
          colorText methodText numberText
        = (StyleColor.extended (.colorMix ⟨m, ⟨a, p1⟩, ⟨b, p2⟩⟩)).serializationForCSSInto
          colorText methodText numberText "" from rfl]
    simp only [StyleColor.serializationForCSSInto, appendPercentage_eq,
      legacy_serializationForCSSInto_eq, String.append_assoc, String.empty_append]
  refine ⟨fun colorText methodText numberText m a b p1 p2 => ⟨key _ _ _ _ _ _ _ _, fun builder => ?_⟩,
    by decide⟩
  rw [legacy_serializationForCSSInto_eq, key]

/-- C17: a value in the `CurrentColor` state serializes to the keyword `currentcolor`, and a
resolved value to the serialization of its colour with nothing added; the `String` form
returns that text and the `StringBuilder` form appends it to the builder. The same holds of
the legacy `currentcolor` value and of a legacy absolute colour. -/
theorem serializationForCSS_leaves (colorText : Color A → String)
    (nodeText nodeBuilderText : Style.ExtendedStyleColor K → String) (heap : Style.Heap K)
    (builder : String) (color : Style.Color A) :
    (color.isCurrentColor = true →
      color.serializationForCSS colorText nodeText heap = "currentcolor" ∧
      color.serializationForCSSInto colorText nodeBuilderText heap builder
        = builder ++ "currentcolor") ∧
    (color.isResolvedColor = true →
      color.serializationForCSS colorText nodeText heap = colorText color.resolvedColor ∧
      color.serializationForCSSInto colorText nodeBuilderText heap builder
        = builder ++ colorText color.resolvedColor) ∧
    (∀ (legacyColorText : A → String) (methodText : M → String) (numberText : P → String),
      (StyleColor.currentColor : StyleColor A M P).serializationForCSS legacyColorText
          methodText numberText = "currentcolor" ∧
      (StyleColor.currentColor : StyleColor A M P).serializationForCSSInto legacyColorText
          methodText numberText builder = builder ++ "currentcolor" ∧
      ∀ c : A,
        (StyleColor.ofColor c : StyleColor A M P).serializationForCSS legacyColorText
            methodText numberText = legacyColorText c ∧
        (StyleColor.ofColor c : StyleColor A M P).serializationForCSSInto legacyColorText
            methodText numberText builder = builder ++ legacyColorText c) := by
  refine ⟨fun h => ?_, fun h => ?_, fun _ _ _ => ⟨rfl, rfl, fun c => ⟨?_, rfl⟩⟩⟩
  · simp [Style.Color.serializationForCSS, Style.Color.serializationForCSSInto, h]
  · have hcur : color.isCurrentColor = false := by
      simp only [Style.Color.isResolvedColor, Bool.and_eq_true, Bool.not_eq_true'] at h
      exact h.1
    simp [Style.Color.serializationForCSS, Style.Color.serializationForCSSInto, h, hcur]
  · simp [StyleColor.serializationForCSS, StyleColor.serializationForCSSInto,
      StyleColor.ofColor]

/-- Witness of C17: `currentColor()` and a red serialized as `rgb(255, 0, 0)`. -/
theorem serializationForCSS_leaves_witness :
    (Style.Color.currentColor : Style.Color Nat).serializationForCSS
        (fun _ => "rgb(255, 0, 0)") (fun (_ : Style.ExtendedStyleColor Nat) => "node")
        (fun _ => ⟨1, 0⟩) = "currentcolor" ∧
    (Style.Color.ofColor (Color.plain 0) : Style.Color Nat).serializationForCSSInto
        (fun _ => "rgb(255, 0, 0)") (fun (_ : Style.ExtendedStyleColor Nat) => "node")
        (fun _ => ⟨1, 0⟩) "color: " = "color: " ++ "rgb(255, 0, 0)" :=
  ⟨((@serializationForCSS_leaves Nat Nat Nat Nat (fun _ => "rgb(255, 0, 0)") (fun _ => "node")
      (fun _ => "node") (fun _ => ⟨1, 0⟩) "color: " Style.Color.currentColor).1 rfl).1,
   ((@serializationForCSS_leaves Nat Nat Nat Nat (fun _ => "rgb(255, 0, 0)") (fun _ => "node")
      (fun _ => "node") (fun _ => ⟨1, 0⟩) "color: "
      (Style.Color.ofColor (Color.plain 0))).2.1 rfl).2⟩

/-- C18: equal values serialize identically, when the serializer of `WebCore::Color` gives
equal texts on equal colours and the serializer of the nodes gives equal texts on equal
nodes. -/
theorem serializationForCSS_congr_of_eq (colorEq : Color A → Color A → Bool)
    (kindEq : K → K → Bool) (colorText : Color A → String)
    (nodeText : Style.ExtendedStyleColor K → String) (heap : Style.Heap K)
    (objects : Nat → Style.Color A) (a b : Nat)
    (hcolor : ∀ c d, colorEq c d = true → colorText c = colorText d)
    (hnode : ∀ m n, Style.ExtendedStyleColor.eq kindEq m n = true → nodeText m = nodeText n)
    (heq : Style.Color.eq colorEq kindEq heap objects a b = true) :
    (objects a).serializationForCSS colorText nodeText heap
      = (objects b).serializationForCSS colorText nodeText heap := by
  by_cases hab : a = b
  · rw [hab]
  · rw [newColor_eq_of_ne colorEq kindEq heap objects a b hab] at heq
    revert heq
    rcases objects a with ⟨_ | _ | _ | p⟩ <;> rcases objects b with ⟨_ | _ | _ | q⟩ <;>
      simp [Style.Color.serializationForCSS, Style.Color.isResolvedColor,
        Style.Color.isCurrentColor, Style.Color.isExtendedStyleColor, Color.isCurrentColor,
        Color.isExtendedStyleColor, Style.Color.resolvedColor, Style.Color.extendedStyleColor,
        Color.decodedOutOfLinePointer] <;>
      first
        | exact hcolor _ _
        | exact fun h => hnode (heap p) (heap q) h

/-- Witness of C18: two references to nodes at different addresses that store the same kind,
serialized by a serializer that prints the kind. -/
theorem serializationForCSS_congr_of_eq_witness :
    (Style.Color.ofExtendedStyleColor 4 : Style.Color Nat).serializationForCSS
        (fun _ => "colour") (fun (n : Style.ExtendedStyleColor Nat) => toString n.m_color)
        (fun p => ⟨1, p % 2⟩)
      = (Style.Color.ofExtendedStyleColor 6 : Style.Color Nat).serializationForCSS
        (fun _ => "colour") (fun (n : Style.ExtendedStyleColor Nat) => toString n.m_color)
        (fun p => ⟨1, p % 2⟩) :=
  serializationForCSS_congr_of_eq (fun (_ _ : Color Nat) => true)
    (fun (m n : Nat) => decide (m = n)) (fun _ => "colour")
    (fun (n : Style.ExtendedStyleColor Nat) => toString n.m_color) (fun p => ⟨1, p % 2⟩)
    (fun n => if n = 0 then Style.Color.ofExtendedStyleColor 4
      else Style.Color.ofExtendedStyleColor 6) 0 1
    (fun _ _ _ => rfl)
    (fun m n h => by
      have : m.m_color = n.m_color := by simpa [Style.ExtendedStyleColor.eq] using h
      simp [this])
    (by decide)

theorem dumpPercentage_eq (numberDump : P → String) (ts : String) (p : Option P) :
    StyleColor.dumpPercentage numberDump ts p
      = ts ++ StyleColor.percentageSuffix numberDump p := by
  cases p <;>
    simp [StyleColor.dumpPercentage, StyleColor.percentageSuffix, String.append_assoc]

/-- The legacy stream operator appends the text `debugDescription` returns. -/
theorem legacy_dumpInto_eq (colorDescription : A → String) (methodDump : M → String)
    (numberDump : P → String) : ∀ (v : StyleColor A M P) (out : String),
    v.dumpInto colorDescription methodDump numberDump out
      = out ++ v.debugDescription colorDescription methodDump numberDump
  | .absolute _, out => by
      simp [StyleColor.debugDescription, StyleColor.dumpInto, String.append_assoc]
  | .extended .currentColor, out => by
      simp [StyleColor.debugDescription, StyleColor.dumpInto, String.append_assoc]
  | .extended (.colorMix ⟨m, ⟨a, p1⟩, ⟨b, p2⟩⟩), out => by
      rw [show (StyleColor.extended (.colorMix ⟨m, ⟨a, p1⟩, ⟨b, p2⟩⟩)).debugDescription
          colorDescription methodDump numberDump
        = (StyleColor.extended (.colorMix ⟨m, ⟨a, p1⟩, ⟨b, p2⟩⟩)).dumpInto
          colorDescription methodDump numberDump "" from rfl]
      simp only [StyleColor.dumpInto, dumpPercentage_eq,
        legacy_dumpInto_eq colorDescription methodDump numberDump a,
        legacy_dumpInto_eq colorDescription methodDump numberDump b,
        String.append_assoc, String.empty_append]

/-- C19, as stated, fails: the dump of a `Style::Color` holding an absolute colour is
`StyleColor[`, the text the stream operator of `WebCore::Color` prints, and `]`; with a colour
printed as `#FF0000` it is `StyleColor[#FF0000]`, which is not of the form
`StyleColor[absoluteColor(...)]`. -/
theorem newColor_dump_absolute_without_wrapper :
    (Style.Color.ofColor (Color.plain 0) : Style.Color Nat).debugDescription
        (fun _ => "#FF0000") (fun (_ : Style.ExtendedStyleColor Nat) => "node")
        (fun _ => ⟨1, 0⟩) = "StyleColor[#FF0000]" ∧
    ∀ description : String,
      (Style.Color.ofColor (Color.plain 0) : Style.Color Nat).debugDescription
        (fun _ => "#FF0000") (fun (_ : Style.ExtendedStyleColor Nat) => "node")
        (fun _ => ⟨1, 0⟩) ≠ "StyleColor[absoluteColor(" ++ description ++ ")]" := by
  have h : (Style.Color.ofColor (Color.plain 0) : Style.Color Nat).debugDescription
        (fun _ => "#FF0000") (fun (_ : Style.ExtendedStyleColor Nat) => "node")
        (fun _ => ⟨1, 0⟩) = "StyleColor[#FF0000]" := by decide
  refine ⟨h, fun description hd => ?_⟩
  rw [h] at hd
  have h2 := congrArg String.data hd
  simp [String.data_append] at h2

/-- C19, amended: the debug dump of every colour value is `StyleColor[`, the dump of its
active kind and `]`, appended to the stream, and `debugDescription()` returns exactly that
text. For a `Style::Color` the kind is dumped as `currentcolor`, as the text the stream
operator of `WebCore::Color` prints for a resolved colour, with no `absoluteColor(` around it,
or as the dump of the node. For the legacy `StyleColor` an absolute colour `c` is dumped as
`StyleColor[absoluteColor(` description of `c` `)]`, `currentcolor` as
`StyleColor[currentColor]`, and a colour-mix as `StyleColor[color-mix(in ` method `, `
first component `, ` second component `)]`, a component being the dump of its colour followed
by a blank, the percentage and `%` when the percentage is present. -/
theorem debug_dump_format :
    (∀ (colorDump : Color A → String) (nodeDump : Style.ExtendedStyleColor K → String)
      (heap : Style.Heap K) (out : String) (color : Style.Color A),
      color.dumpInto colorDump nodeDump heap out
        = out ++ ("StyleColor["
          ++ (if color.isCurrentColor then "currentcolor"
              else if color.isResolvedColor then colorDump color.resolvedColor
              else nodeDump (color.extendedStyleColor heap)) ++ "]") ∧
      color.debugDescription colorDump nodeDump heap
        = "StyleColor["
          ++ (if color.isCurrentColor then "currentcolor"
              else if color.isResolvedColor then colorDump color.resolvedColor
              else nodeDump (color.extendedStyleColor heap)) ++ "]") ∧
    (∀ (colorDescription : A → String) (methodDump : M → String) (numberDump : P → String),
      (∀ (v : StyleColor A M P) (out : String),
        v.dumpInto colorDescription methodDump numberDump out
          = out ++ v.debugDescription colorDescription methodDump numberDump) ∧
      (∀ c : A, (StyleColor.ofColor c : StyleColor A M P).debugDescription colorDescription
          methodDump numberDump = "StyleColor[absoluteColor(" ++ colorDescription c ++ ")]") ∧
      (StyleColor.currentColor : StyleColor A M P).debugDescription colorDescription
          methodDump numberDump = "StyleColor[currentColor]" ∧
      (∀ (m : M) (a b : StyleColor A M P) (p1 p2 : Option P),
        (StyleColor.extended (.colorMix ⟨m, ⟨a, p1⟩, ⟨b, p2⟩⟩)).debugDescription
            colorDescription methodDump numberDump
          = "StyleColor[color-mix(in " ++ methodDump m ++ ", "
            ++ (a.debugDescription colorDescription methodDump numberDump
                ++ StyleColor.percentageSuffix numberDump p1) ++ ", "
            ++ (b.debugDescription colorDescription methodDump numberDump
                ++ StyleColor.percentageSuffix numberDump p2) ++ ")]")) := by
  refine ⟨fun colorDump nodeDump heap out color => ?_,
    fun colorDescription methodDump numberDump =>
      ⟨legacy_dumpInto_eq colorDescription methodDump numberDump, fun c => ?_, ?_,
        fun m a b p1 p2 => ?_⟩⟩
  · unfold Style.Color.debugDescription Style.Color.dumpInto
    by_cases h1 : color.isCurrentColor = true
    · simp [h1, String.append_assoc]
    · by_cases h2 : color.isResolvedColor = true
      · simp [h1, h2, String.append_assoc]
      · simp [h1, h2, String.append_assoc]
  · simp [StyleColor.debugDescription, StyleColor.dumpInto, StyleColor.ofColor,
      String.append_assoc]
  · simp [StyleColor.debugDescription, StyleColor.dumpInto, StyleColor.currentColor,
      StyleColor.default, String.append_assoc]
  · rw [show (StyleColor.extended (.colorMix ⟨m, ⟨a, p1⟩, ⟨b, p2⟩⟩)).debugDescription
          colorDescription methodDump numberDump
        = (StyleColor.extended (.colorMix ⟨m, ⟨a, p1⟩, ⟨b, p2⟩⟩)).dumpInto
          colorDescription methodDump numberDump "" from rfl]
    simp only [StyleColor.dumpInto, dumpPercentage_eq, legacy_dumpInto_eq,
      String.append_assoc, String.empty_append]
    rfl

/-- C20: a colour value made by the default constructor is `currentcolor`, for
`Style::Color()` and for the legacy `StyleColor()`: `isCurrentColor()` and
`containsCurrentColor()` are true, the value is neither resolved (absolute) nor extended
(a colour-mix), and it resolves to the current colour passed in. -/
theorem default_is_currentColor :
    ((Style.Color.default : Style.Color A).isCurrentColor = true ∧
      (∀ (nodeContainsCurrentColor : Style.ExtendedStyleColor K → Bool) (heap : Style.Heap K),
        (Style.Color.default : Style.Color A).containsCurrentColor nodeContainsCurrentColor
          heap = true) ∧
      (Style.Color.default : Style.Color A).isResolvedColor = false ∧
      (Style.Color.default : Style.Color A).isExtendedStyleColor = false ∧
      (∀ (nodeResolveColor : Style.ExtendedStyleColor K → Color A → Color A)
        (heap : Style.Heap K) (cur : Color A),
        (Style.Color.default : Style.Color A).resolveColor nodeResolveColor heap cur = cur)) ∧
    ((StyleColor.default : StyleColor A M P).isCurrentColor = true ∧
      (StyleColor.default : StyleColor A M P).containsCurrentColor = true ∧
      (StyleColor.default : StyleColor A M P).isAbsoluteColor = false ∧
      (StyleColor.default : StyleColor A M P).isColorMix = false ∧
      (∀ (mix : CSSResolvedColorMix A M P → A) (cur : A),
        (StyleColor.default : StyleColor A M P).resolveColor mix cur = cur)) :=
  ⟨⟨rfl, fun _ _ => rfl, rfl, rfl, fun _ _ _ => rfl⟩, rfl, rfl, rfl, rfl, fun _ _ => rfl⟩

/-! ## Termination of the legacy recursions -/

theorem legacy_resolveColorFuel_eq (mix : CSSResolvedColorMix A M P → A) :
    ∀ (v : StyleColor A M P) (fuel : Nat) (cur : A), v.depth < fuel →
      StyleColor.resolveColorFuel mix fuel v cur = some (v.resolveColor mix cur)
  | _, 0, _, h => absurd h (Nat.not_lt_zero _)
  | .absolute _, _ + 1, _, _ => rfl
  | .extended .currentColor, _ + 1, _, _ => rfl
  | .extended (.colorMix ⟨_, ⟨a, _⟩, ⟨b, _⟩⟩), fuel + 1, cur, h => by
      simp only [StyleColor.depth] at h
      have ha : a.depth < fuel := by omega
      have hb : b.depth < fuel := by omega
      simp only [StyleColor.resolveColorFuel, StyleColor.resolveColor,
        legacy_resolveColorFuel_eq mix a fuel cur ha, legacy_resolveColorFuel_eq mix b fuel cur hb]

theorem legacy_containsCurrentColorFuel_eq :
    ∀ (v : StyleColor A M P) (fuel : Nat), v.depth < fuel →
      StyleColor.containsCurrentColorFuel fuel v = some v.containsCurrentColor
  | _, 0, h => absurd h (Nat.not_lt_zero _)
  | .absolute _, _ + 1, _ => rfl
  | .extended .currentColor, _ + 1, _ => rfl
  | .extended (.colorMix ⟨_, ⟨a, _⟩, ⟨b, _⟩⟩), fuel + 1, h => by
      simp only [StyleColor.depth] at h
      have ha : a.depth < fuel := by omega
      have hb : b.depth < fuel := by omega
      simp only [StyleColor.containsCurrentColorFuel, StyleColor.containsCurrentColor,
        legacy_containsCurrentColorFuel_eq a fuel ha, legacy_containsCurrentColorFuel_eq b fuel hb]
      cases a.containsCurrentColor <;> simp

theorem legacy_serializationForCSSIntoFuel_eq (colorText : A → String)
    (methodText : M → String) (numberText : P → String) :
    ∀ (v : StyleColor A M P) (fuel : Nat) (builder : String), v.depth < fuel →
      StyleColor.serializationForCSSIntoFuel colorText methodText numberText fuel v builder
        = some (v.serializationForCSSInto colorText methodText numberText builder)
  | _, 0, _, h => absurd h (Nat.not_lt_zero _)
  | .absolute _, _ + 1, _, _ => rfl
  | .extended .currentColor, _ + 1, _, _ => rfl
  | .extended (.colorMix ⟨_, ⟨a, _⟩, ⟨b, _⟩⟩), fuel + 1, builder, h => by
      simp only [StyleColor.depth] at h
      have ha : a.depth < fuel := by omega
      have hb : b.depth < fuel := by omega
      simp only [StyleColor.serializationForCSSIntoFuel, StyleColor.serializationForCSSInto,
        legacy_serializationForCSSIntoFuel_eq colorText methodText numberText a fuel _ ha,
        legacy_serializationForCSSIntoFuel_eq colorText methodText numberText b fuel _ hb]

theorem legacy_dumpIntoFuel_eq (colorDescription : A → String) (methodDump : M → String)
    (numberDump : P → String) :
    ∀ (v : StyleColor A M P) (fuel : Nat) (out : String), v.depth < fuel →
      StyleColor.dumpIntoFuel colorDescription methodDump numberDump fuel v out
        = some (v.dumpInto colorDescription methodDump numberDump out)
  | _, 0, _, h => absurd h (Nat.not_lt_zero _)
  | .absolute _, _ + 1, _, _ => rfl
  | .extended .currentColor, _ + 1, _, _ => rfl
  | .extended (.colorMix ⟨_, ⟨a, _⟩, ⟨b, _⟩⟩), fuel + 1, out, h => by
      simp only [StyleColor.depth] at h
      have ha : a.depth < fuel := by omega
      have hb : b.depth < fuel := by omega
      simp only [StyleColor.dumpIntoFuel, StyleColor.dumpInto,
        legacy_dumpIntoFuel_eq colorDescription methodDump numberDump a fuel _ ha,
        legacy_dumpIntoFuel_eq colorDescription methodDump numberDump b fuel _ hb]

/-- C21: on every colour tree the legacy `resolveColor`, `containsCurrentColor`,
`serializationForCSS` and debug dump return a result: run with a bound on the depth of nested
calls, each returns, as soon as the bound exceeds the depth of the tree, the value of the
function defined by recursion on the tree. The recursion goes into the two components of a
colour-mix only, which are strictly smaller and strictly less deep than the mix. -/
theorem legacy_operations_total (mix : CSSResolvedColorMix A M P → A) (colorText : A → String)
    (methodText : M → String) (numberText : P → String) (colorDescription : A → String)
    (methodDump : M → String) (numberDump : P → String) (v : StyleColor A M P) (fuel : Nat)
    (hfuel : v.depth < fuel) :
    (∀ cur, StyleColor.resolveColorFuel mix fuel v cur = some (v.resolveColor mix cur)) ∧
    StyleColor.containsCurrentColorFuel fuel v = some v.containsCurrentColor ∧
    (∀ builder,
      StyleColor.serializationForCSSIntoFuel colorText methodText numberText fuel v builder
        = some (v.serializationForCSSInto colorText methodText numberText builder)) ∧
    (∀ out, StyleColor.dumpIntoFuel colorDescription methodDump numberDump fuel v out
        = some (v.dumpInto colorDescription methodDump numberDump out)) ∧
    (∀ (m : M) (a b : StyleColor A M P) (p1 p2 : Option P),
      v = .extended (.colorMix ⟨m, ⟨a, p1⟩, ⟨b, p2⟩⟩) →
      a.size < v.size ∧ b.size < v.size ∧ a.depth < v.depth ∧ b.depth < v.depth) := by
  refine ⟨fun cur => legacy_resolveColorFuel_eq mix v fuel cur hfuel,
    legacy_containsCurrentColorFuel_eq v fuel hfuel,
    fun builder => legacy_serializationForCSSIntoFuel_eq _ _ _ v fuel builder hfuel,
    fun out => legacy_dumpIntoFuel_eq _ _ _ v fuel out hfuel, ?_⟩
  rintro m a b p1 p2 rfl
  simp only [StyleColor.size, StyleColor.depth]
  omega

/-- Witness of C21: a mix nested in a mix, of depth 2, run with the bound 3. -/
theorem legacy_operations_total_witness :
    StyleColor.resolveColorFuel (fun r => 10 * r.mixComponents1.color + r.mixComponents2.color)
        3 (.extended (.colorMix ⟨0, ⟨.extended (.colorMix ⟨0, ⟨.extended .currentColor, none⟩,
          ⟨.absolute 2, some 40⟩⟩), some 30⟩, ⟨.absolute 3, none⟩⟩) : StyleColor Nat Nat Nat) 5
      = some 523 ∧
    StyleColor.containsCurrentColorFuel 3
        (.extended (.colorMix ⟨0, ⟨.extended (.colorMix ⟨0, ⟨.extended .currentColor, none⟩,
          ⟨.absolute 2, some 40⟩⟩), some 30⟩, ⟨.absolute 3, none⟩⟩) : StyleColor Nat Nat Nat)
      = some true :=
  ⟨((legacy_operations_total (fun r => 10 * r.mixComponents1.color + r.mixComponents2.color)
      (fun _ => "c") (fun _ => "m") (fun _ => "n") (fun _ => "c") (fun _ => "m")
      (fun _ => "n")
      (.extended (.colorMix ⟨0, ⟨.extended (.colorMix ⟨0, ⟨.extended .currentColor, none⟩,
        ⟨.absolute 2, some 40⟩⟩), some 30⟩, ⟨.absolute 3, none⟩⟩) : StyleColor Nat Nat Nat)
      3 (by decide)).1 5).trans (by decide),
   ((legacy_operations_total (fun r => 10 * r.mixComponents1.color + r.mixComponents2.color)
      (fun _ => "c") (fun _ => "m") (fun _ => "n") (fun _ => "c") (fun _ => "m")
      (fun _ => "n")
      (.extended (.colorMix ⟨0, ⟨.extended (.colorMix ⟨0, ⟨.extended .currentColor, none⟩,
        ⟨.absolute 2, some 40⟩⟩), some 30⟩, ⟨.absolute 3, none⟩⟩) : StyleColor Nat Nat Nat)
      3 (by decide)).2.1).trans (by decide)⟩

/-! ## Frame and assertions of the read-only operations -/

/-- Taking the temporary reference on a node and releasing it again restores the heap. -/
theorem releaseRef_after_ref (heap : Style.Heap K) (pointer : Nat) :
    Style.Color.releaseRef (Function.update heap pointer (heap pointer).ref) pointer = heap := by
  funext q
  by_cases h : q = pointer
  · subst h
    simp [Style.Color.releaseRef, Style.ExtendedStyleColor.ref, Style.ExtendedStyleColor.deref]
  · simp [Style.Color.releaseRef, Function.update_noteq h]

/-- C22: the read-only operations of `Style::Color` leave the heap as it was: after
`resolveColor`, `containsCurrentColor`, either form of `serializationForCSS`, the debug dump
and `debugDescription` have returned, every node has the count and the stored kind it had
before, the reference taken by `protectedExtendedStyleColor()` having been released. The
value itself is not written to by these operations. -/
theorem readOnly_operations_frame
    (nodeResolveColor : Style.ExtendedStyleColor K → Color A → Color A)
    (nodeContainsCurrentColor : Style.ExtendedStyleColor K → Bool)
    (colorText colorDump : Color A → String)
    (nodeText nodeBuilderText nodeDump : Style.ExtendedStyleColor K → String)
    (heap : Style.Heap K) (self : Style.Color A) (cur : Color A) (text : String) :
    (self.resolveColorChecked nodeResolveColor heap cur).map Prod.fst = some heap ∧
    (self.containsCurrentColorChecked nodeContainsCurrentColor heap).map Prod.fst
      = some heap ∧
    (self.serializationForCSSChecked colorText nodeText heap).map Prod.fst = some heap ∧
    (self.serializationForCSSIntoChecked colorText nodeBuilderText heap text).map Prod.fst
      = some heap ∧
    (self.dumpIntoChecked colorDump nodeDump heap text).map Prod.fst = some heap ∧
    (self.debugDescriptionChecked colorDump nodeDump heap).map Prod.fst = some heap := by
  rcases self with ⟨_ | _ | _ | p⟩ <;>
    simp [Style.Color.resolveColorChecked, Style.Color.containsCurrentColorChecked,
      Style.Color.serializationForCSSChecked, Style.Color.serializationForCSSIntoChecked,
      Style.Color.dumpIntoChecked, Style.Color.debugDescriptionChecked,
      Style.Color.protectedExtendedStyleColor, Style.Color.extendedStyleColorChecked,
      Style.Color.resolvedColorChecked, Style.Color.isResolvedColor,
      Style.Color.isCurrentColor, Style.Color.isExtendedStyleColor, Color.isCurrentColor,
      Color.isExtendedStyleColor, Color.decodedOutOfLinePointer, releaseRef_after_ref]

/-- C27: the assertions of the accessors never fail. In `operator==`, `resolveColor`,
`containsCurrentColor`, both forms of `serializationForCSS`, the debug dump and
`debugDescription`, `resolvedColor()` is reached only on a resolved value and
`extendedStyleColor()` only on an extended one, so that each operation, run with the
assertions, returns a result; for `operator==` it is the result of the operation run without
them. -/
theorem accessor_assertions_never_fail (colorEq : Color A → Color A → Bool)
    (kindEq : K → K → Bool)
    (nodeResolveColor : Style.ExtendedStyleColor K → Color A → Color A)
    (nodeContainsCurrentColor : Style.ExtendedStyleColor K → Bool)
    (colorText colorDump : Color A → String)
    (nodeText nodeBuilderText nodeDump : Style.ExtendedStyleColor K → String)
    (heap : Style.Heap K) (objects : Nat → Style.Color A) (this other : Nat) (cur : Color A)
    (text : String) :
    Style.Color.eqChecked colorEq kindEq heap objects this other
      = some (Style.Color.eq colorEq kindEq heap objects this other) ∧
    ((objects this).resolveColorChecked nodeResolveColor heap cur).isSome = true ∧
    ((objects this).containsCurrentColorChecked nodeContainsCurrentColor heap).isSome = true ∧
    ((objects this).serializationForCSSChecked colorText nodeText heap).isSome = true ∧
    ((objects this).serializationForCSSIntoChecked colorText nodeBuilderText heap text).isSome
      = true ∧
    ((objects this).dumpIntoChecked colorDump nodeDump heap text).isSome = true ∧
    ((objects this).debugDescriptionChecked colorDump nodeDump heap).isSome = true ∧
    ((objects this).resolvedColorChecked.isSome = (objects this).isResolvedColor) ∧
    ((objects this).extendedStyleColorChecked.isSome = (objects this).isExtendedStyleColor) := by
  refine ⟨?_, ?_⟩
  · unfold Style.Color.eqChecked Style.Color.eq
    by_cases hne : this = other
    · simp [hne]
    · rcases objects this with ⟨_ | _ | _ | p⟩ <;> rcases objects other with ⟨_ | _ | _ | q⟩ <;>
        simp [hne, Style.Color.extendedStyleColorChecked, Style.Color.resolvedColorChecked,
          Style.Color.isResolvedColor, Style.Color.isCurrentColor,
          Style.Color.isExtendedStyleColor, Color.isCurrentColor, Color.isExtendedStyleColor,
          Color.decodedOutOfLinePointer, Style.Color.resolvedColor,
          Style.Color.extendedStyleColor]
  · rcases objects this with ⟨_ | _ | _ | p⟩ <;>
      simp [Style.Color.resolveColorChecked, Style.Color.containsCurrentColorChecked,
        Style.Color.serializationForCSSChecked, Style.Color.serializationForCSSIntoChecked,
        Style.Color.dumpIntoChecked, Style.Color.debugDescriptionChecked,
        Style.Color.protectedExtendedStyleColor, Style.Color.extendedStyleColorChecked,
        Style.Color.resolvedColorChecked, Style.Color.isResolvedColor,
        Style.Color.isCurrentColor, Style.Color.isExtendedStyleColor, Color.isCurrentColor,
        Color.isExtendedStyleColor, Color.decodedOutOfLinePointer]

/-! ## Resolution of the composite kinds, from the specification -/

/-- C23: a composite value whose node is a `Layers` stack with zero layers resolves to the
fully transparent colour whatever the current colour is: this holds of every value that
points to such a node, of the value `Color(ColorLayers&&)` builds from an empty stack, and of
`resolveColor` run with its assertions, which returns a result. -/
theorem resolveColor_empty_layers {Q R : Type} (k : Style.Collaborators (Color A) M P Q R)
    (heap : Style.Heap (Style.ExtendedColorKind (Color A) M P Q R)) (node : Nat)
    (cur : Color A) :
    (∀ color : Style.Color A, color.m_color = .extendedStyleColor node →
      (heap node).m_color = .colorLayers [] →
      color.resolveColor (fun n c => n.m_color.resolve k c) heap cur = k.transparent) ∧
    (Style.Color.ofColorLayers heap node []).2.resolveColor (fun n c => n.m_color.resolve k c)
        (Style.Color.ofColorLayers heap node []).1 cur = k.transparent ∧
    ((Style.Color.ofColorLayers heap node []).2.resolveColorChecked
        (fun n c => n.m_color.resolve k c)
        (Style.Color.ofColorLayers heap node []).1 cur).map Prod.snd = some k.transparent := by
  refine ⟨fun color hc hn => ?_, ?_, ?_⟩
  · simp [Style.Color.resolveColor, Style.Color.isResolvedColor, Style.Color.isCurrentColor,
      Style.Color.isExtendedStyleColor, Color.isCurrentColor, Color.isExtendedStyleColor,
      Style.Color.extendedStyleColor, Color.decodedOutOfLinePointer, hc, hn,
      Style.ExtendedColorKind.resolve]
  · simp [Style.Color.ofColorLayers, Style.Color.makeIndirectColor, Style.Color.store,
      Color.setExtendedStyleColor, Style.ExtendedStyleColor.create,
      Style.Color.resolveColor, Style.Color.isResolvedColor, Style.Color.isCurrentColor,
      Style.Color.isExtendedStyleColor, Color.isCurrentColor, Color.isExtendedStyleColor,
      Style.Color.extendedStyleColor, Color.decodedOutOfLinePointer,
      Style.ExtendedColorKind.resolve]
  · simp [Style.Color.ofColorLayers, Style.Color.makeIndirectColor, Style.Color.store,
      Color.setExtendedStyleColor, Style.ExtendedStyleColor.create,
      Style.Color.resolveColorChecked, Style.Color.protectedExtendedStyleColor,
      Style.Color.extendedStyleColorChecked, Style.Color.isResolvedColor,
      Style.Color.isCurrentColor, Style.Color.isExtendedStyleColor, Color.isCurrentColor,
      Color.isExtendedStyleColor, Color.decodedOutOfLinePointer,
      Style.ExtendedStyleColor.ref, Style.ExtendedColorKind.resolve]

/-- Witness of C23: a value pointing to node 7, which holds an empty stack, resolved against
a red current colour, transparent being the colour 0. -/
theorem resolveColor_empty_layers_witness :
    (Style.Color.ofExtendedStyleColor 7 : Style.Color Nat).resolveColor
        (fun (n : Style.ExtendedStyleColor (Style.ExtendedColorKind (Color Nat) Nat Nat Nat Nat))
          c => n.m_color.resolve
            ⟨fun _ a _ _ _ => a, fun l => l.headD (Color.plain 9), fun a _ _ => a,
              fun a _ => a, Color.plain 0⟩ c)
        (fun _ => ⟨1, .colorLayers []⟩) (Color.plain 5) = Color.plain 0 :=
  (resolveColor_empty_layers
    (⟨fun _ a _ _ _ => a, fun l => l.headD (Color.plain 9), fun a _ _ => a,
      fun a _ => a, Color.plain 0⟩ : Style.Collaborators (Color Nat) Nat Nat Nat Nat)
    (fun _ => ⟨1, .colorLayers []⟩) 7 (Color.plain 5)).1
    (Style.Color.ofExtendedStyleColor 7) rfl rfl

/-! ## Equality of the legacy colour-mix: theorems -/

/-- C24: two colour-mix nodes are equal exactly when their interpolation methods are equal,
their first components are equal, colour and optional percentage, and their second
components are equal; two nodes held through `UniqueRef` compare in the same way. The order
of the components matters: whenever the equality of colours tells `a` from `b`, the mix of
`a` and `b` is not equal to the mix of `b` and `a`. -/
theorem colorMix_eq_fieldwise {C : Type} (methodEq : M → M → Bool) (colorEq : C → C → Bool)
    (numberEq : P → P → Bool) :
    (∀ x y : StyleColorMix C M P,
      StyleColorMix.eq methodEq colorEq numberEq x y = true ↔
        methodEq x.colorInterpolationMethod y.colorInterpolationMethod = true ∧
        (colorEq x.mixComponents1.color y.mixComponents1.color = true ∧
          StyleColorMix.optionalEq numberEq x.mixComponents1.percentage
            y.mixComponents1.percentage = true) ∧
        (colorEq x.mixComponents2.color y.mixComponents2.color = true ∧
          StyleColorMix.optionalEq numberEq x.mixComponents2.percentage
            y.mixComponents2.percentage = true)) ∧
    (∀ x y : StyleColorMix C M P,
      ExtendedStyleColor.kindEq methodEq colorEq numberEq (.colorMix x) (.colorMix y)
        = StyleColorMix.eq methodEq colorEq numberEq x y) ∧
    (∀ (m : M) (a b : C) (p1 p2 : Option P), colorEq a b = false →
      StyleColorMix.eq methodEq colorEq numberEq ⟨m, ⟨a, p1⟩, ⟨b, p2⟩⟩ ⟨m, ⟨b, p1⟩, ⟨a, p2⟩⟩
        = false) := by
  refine ⟨fun x y => ?_, fun _ _ => rfl, fun m a b p1 p2 h => ?_⟩
  · simp [StyleColorMix.eq, StyleColorMix.Component.eq, and_assoc]
  · simp [StyleColorMix.eq, StyleColorMix.Component.eq, h]

/-- Witness of C24: the mix of `currentcolor` and an absolute colour against the mix of the
two in the other order, colours compared by their leaves. -/
theorem colorMix_eq_fieldwise_witness :
    StyleColorMix.eq (fun (m n : Nat) => decide (m = n))
      (fun (a b : StyleColor Nat Nat Nat) => decide (a.leaves = b.leaves))
      (fun (m n : Nat) => decide (m = n))
      ⟨0, ⟨StyleColor.currentColor, some 30⟩, ⟨StyleColor.ofColor 7, some 70⟩⟩
      ⟨0, ⟨StyleColor.ofColor 7, some 30⟩, ⟨StyleColor.currentColor, some 70⟩⟩ = false :=
  (colorMix_eq_fieldwise (fun (m n : Nat) => decide (m = n))
    (fun (a b : StyleColor Nat Nat Nat) => decide (a.leaves = b.leaves))
    (fun (m n : Nat) => decide (m = n))).2.2 0 StyleColor.currentColor (StyleColor.ofColor 7)
    (some 30) (some 70) (by decide)

/-! ## Colours of a `RenderStyle`: theorems -/

/-- C25: `colorResolvingCurrentColor(colour, visitedLink)` is the value resolved against the
effective current colour: against `visitedLinkColor()` when `visitedLink` is true and against
`color()` when it is false. -/
theorem colorResolvingCurrentColorOf_eq {D W F : Type}
    (env : RenderStyle.Environment A M P D W F) (style : RenderStyle A M P D W)
    (color : StyleColor A M P) :
    RenderStyle.colorResolvingCurrentColorOf env style color true
      = color.resolveColor env.mix style.visitedLinkColor ∧
    RenderStyle.colorResolvingCurrentColorOf env style color false
      = color.resolveColor env.mix style.color :=
  ⟨rfl, rfl⟩

/-- The colour of a logical border colour property is the colour of the property that
`resolveDirectionAwareProperty` gives, asked for with the default value of `visitedLink`:
the `visitedLink` of the call plays no part. -/
theorem unresolvedColorForProperty_logical {D W F : Type}
    (env : RenderStyle.Environment A M P D W F) (style : RenderStyle A M P D W) (fuel : Nat)
    (p : CSSPropertyID) (visitedLink : Bool) (hp : p.isLogicalBorderColor = true) :
    RenderStyle.unresolvedColorForProperty env style (fuel + 1) p visitedLink
      = RenderStyle.unresolvedColorForProperty env style fuel
          (env.resolveDirectionAwareProperty p style.direction style.writingMode)
          env.defaultVisitedLink := by
  cases p <;> simp [CSSPropertyID.isLogicalBorderColor] at hp <;>
    simp [RenderStyle.unresolvedColorForProperty]

/-- C26, at the failing input: in a style whose border colours are `(1, 9)` and whose
visited-link border colours are `(2, 9)`, where `border-block-start-color` is
`border-top-color`, the call for `border-block-start-color` with `visitedLink` true gives
`(1, 9)`, the unvisited colour, when the default of `visitedLink` is false, although the call
for `border-top-color` with `visitedLink` true gives `(2, 9)`; when the default is true, the
call with `visitedLink` false gives `(2, 9)` although the call for `border-top-color` gives
`(1, 9)`. The flag of the call is not carried through. -/
theorem unresolvedColorForProperty_logical_drops_visitedLink :
    (RenderStyle.unresolvedColorForProperty (RenderStyle.Environment.sample false)
        (RenderStyle.sample (.absolute (1, 9)) (.absolute (2, 9)) (.absolute (3, 9)) (4, 9) (5, 9) () () false
          .InsideVisited false) 2 .CSSPropertyBorderBlockStartColor true
      = some (.absolute (1, 9)) ∧
    RenderStyle.unresolvedColorForProperty (RenderStyle.Environment.sample false)
        (RenderStyle.sample (.absolute (1, 9)) (.absolute (2, 9)) (.absolute (3, 9)) (4, 9) (5, 9) () () false
          .InsideVisited false) 2 .CSSPropertyBorderTopColor true
      = some (.absolute (2, 9))) ∧
    (RenderStyle.unresolvedColorForProperty (RenderStyle.Environment.sample true)
        (RenderStyle.sample (.absolute (1, 9)) (.absolute (2, 9)) (.absolute (3, 9)) (4, 9) (5, 9) () () false
          .InsideVisited false) 2 .CSSPropertyBorderBlockStartColor false
      = some (.absolute (2, 9)) ∧
    RenderStyle.unresolvedColorForProperty (RenderStyle.Environment.sample true)
        (RenderStyle.sample (.absolute (1, 9)) (.absolute (2, 9)) (.absolute (3, 9)) (4, 9) (5, 9) () () false
          .InsideVisited false) 2 .CSSPropertyBorderTopColor false
      = some (.absolute (1, 9))) :=
  ⟨⟨rfl, rfl⟩, rfl, rfl⟩

/-- A property that is not a logical border colour has its colour looked up at once. -/
theorem unresolvedColorForProperty_isSome_of_physical {D W F : Type}
    (env : RenderStyle.Environment A M P D W F) (style : RenderStyle A M P D W) (fuel : Nat)
    (p : CSSPropertyID) (visitedLink : Bool) (hp : p.isLogicalBorderColor = false) :
    ∃ c, RenderStyle.unresolvedColorForProperty env style (fuel + 1) p visitedLink = some c := by
  cases p <;> simp [CSSPropertyID.isLogicalBorderColor] at hp <;>
    simp [RenderStyle.unresolvedColorForProperty]

/-- When `resolveDirectionAwareProperty` gives no logical border colour, two nested calls
are enough for `unresolvedColorForProperty` to return. -/
theorem unresolvedColorForProperty_isSome {D W F : Type}
    (env : RenderStyle.Environment A M P D W F) (style : RenderStyle A M P D W)
    (hresolve : ∀ p, (env.resolveDirectionAwareProperty p style.direction
      style.writingMode).isLogicalBorderColor = false)
    (fuel : Nat) (p : CSSPropertyID) (visitedLink : Bool) :
    ∃ c, RenderStyle.unresolvedColorForProperty env style (fuel + 2) p visitedLink = some c := by
  by_cases hp : p.isLogicalBorderColor = true
  · rw [unresolvedColorForProperty_logical env style (fuel + 1) p visitedLink hp]
    exact unresolvedColorForProperty_isSome_of_physical env style fuel _ _ (hresolve p)
  · exact unresolvedColorForProperty_isSome_of_physical env style (fuel + 1) p visitedLink
      (by simpa using hp)

/-- One step of `colorResolvingCurrentColor`. -/
theorem colorResolvingCurrentColor_succ {D W F : Type}
    (env : RenderStyle.Environment A M P D W F) (style : RenderStyle A M P D W) (fuel : Nat)
    (p : CSSPropertyID) (visitedLink : Bool) :
    RenderStyle.colorResolvingCurrentColor env style (fuel + 1) p visitedLink
      = match RenderStyle.unresolvedColorForProperty env style fuel p visitedLink with
        | none => none
        | some result =>
          if p = .CSSPropertyTextDecorationColor ∧ result.isCurrentColor = true then
            if style.hasPositiveStrokeWidth then
              match RenderStyle.colorResolvingCurrentColor env style fuel
                  style.usedStrokeColorProperty visitedLink with
              | none => none
              | some strokeColor =>
                if env.isVisible strokeColor then some strokeColor
                else RenderStyle.colorResolvingCurrentColor env style fuel
                  .CSSPropertyWebkitTextFillColor visitedLink
            else RenderStyle.colorResolvingCurrentColor env style fuel
              .CSSPropertyWebkitTextFillColor visitedLink
          else some (RenderStyle.colorResolvingCurrentColorOf env style result visitedLink) := by
  rw [RenderStyle.colorResolvingCurrentColor]

/-- A property other than `text-decoration-color` resolves as soon as its colour is looked
up. -/
theorem colorResolvingCurrentColor_of_ne_textDecoration {D W F : Type}
    (env : RenderStyle.Environment A M P D W F) (style : RenderStyle A M P D W) (fuel : Nat)
    (p : CSSPropertyID) (visitedLink : Bool) (hp : p ≠ .CSSPropertyTextDecorationColor) :
    RenderStyle.colorResolvingCurrentColor env style (fuel + 1) p visitedLink
      = (RenderStyle.unresolvedColorForProperty env style fuel p visitedLink).map
          (fun result => RenderStyle.colorResolvingCurrentColorOf env style result visitedLink) := by
  rw [colorResolvingCurrentColor_succ]
  cases RenderStyle.unresolvedColorForProperty env style fuel p visitedLink with
  | none => rfl
  | some result => simp [hp]

/-- With `resolveDirectionAwareProperty` giving no logical border colour and the used stroke
colour property not being `text-decoration-color`, four nested calls are enough for
`colorResolvingCurrentColor` to return. -/
theorem colorResolvingCurrentColor_isSome {D W F : Type}
    (env : RenderStyle.Environment A M P D W F) (style : RenderStyle A M P D W)
    (hresolve : ∀ p, (env.resolveDirectionAwareProperty p style.direction
      style.writingMode).isLogicalBorderColor = false)
    (hstroke : style.usedStrokeColorProperty ≠ .CSSPropertyTextDecorationColor)
    (fuel : Nat) (p : CSSPropertyID) (visitedLink : Bool) :
    ∃ c, RenderStyle.colorResolvingCurrentColor env style (fuel + 4) p visitedLink = some c := by
  have hother : ∀ (q : CSSPropertyID), q ≠ .CSSPropertyTextDecorationColor →
      ∃ c, RenderStyle.colorResolvingCurrentColor env style (fuel + 3) q visitedLink
        = some c := by
    intro q hq
    rw [colorResolvingCurrentColor_of_ne_textDecoration env style (fuel + 2) q visitedLink hq]
    obtain ⟨c, hc⟩ := unresolvedColorForProperty_isSome env style hresolve fuel q visitedLink
    exact ⟨_, by rw [hc]; rfl⟩
  obtain ⟨result, hresult⟩ :=
    unresolvedColorForProperty_isSome env style hresolve (fuel + 1) p visitedLink
  obtain ⟨fill, hfill⟩ := hother .CSSPropertyWebkitTextFillColor (by decide)
  obtain ⟨stroke, hstroke2⟩ := hother style.usedStrokeColorProperty hstroke
  rw [colorResolvingCurrentColor_succ env style (fuel + 3) p visitedLink, hresult]
  simp only [hstroke2, hfill]
  split_ifs <;> exact ⟨_, rfl⟩

/-- C28: when `colorWithAlpha(c, a)` has the alpha `a`, the colour `visitedDependentColor`
returns has the alpha of the unvisited colour `colorResolvingCurrentColor(p, false)`, whatever
the visited colour; and it does return a colour, four nested calls being enough when
`resolveDirectionAwareProperty` gives no logical border colour and the used stroke colour
property is not `text-decoration-color`. -/
theorem visitedDependentColor_alpha {D W F : Type}
    (env : RenderStyle.Environment A M P D W F) (style : RenderStyle A M P D W)
    (halpha : ∀ c a, env.alphaAsFloat (env.colorWithAlpha c a) = a)
    (p : CSSPropertyID) (paintBehavior : List PaintBehavior) :
    (∀ fuel result,
      RenderStyle.visitedDependentColor env style fuel p paintBehavior = some result →
      ∃ unvisitedColor,
        RenderStyle.colorResolvingCurrentColor env style fuel p false = some unvisitedColor ∧
        env.alphaAsFloat result = env.alphaAsFloat unvisitedColor) ∧
    ((∀ q, (env.resolveDirectionAwareProperty q style.direction
        style.writingMode).isLogicalBorderColor = false) →
      style.usedStrokeColorProperty ≠ .CSSPropertyTextDecorationColor →
      ∀ fuel, ∃ result,
        RenderStyle.visitedDependentColor env style (fuel + 4) p paintBehavior
          = some result) := by
  refine ⟨fun fuel result h => ?_, fun hresolve hstroke fuel => ?_⟩
  · unfold RenderStyle.visitedDependentColor at h
    cases hu : RenderStyle.colorResolvingCurrentColor env style fuel p false with
    | none => simp [hu] at h
    | some unvisitedColor =>
      refine ⟨unvisitedColor, rfl, ?_⟩
      simp only [hu] at h
      split_ifs at h with h1 h2 h3
      · cases h; rfl
      · cases h; rfl
      · cases h; rfl
      · cases hv : RenderStyle.colorResolvingCurrentColor env style fuel p true with
        | none => simp [hv] at h
        | some visitedColor =>
          simp only [hv] at h
          split_ifs at h
          · cases h; rfl
          · cases h; exact halpha _ _
  · obtain ⟨u, hu⟩ := colorResolvingCurrentColor_isSome env style hresolve hstroke fuel p false
    obtain ⟨v, hv⟩ := colorResolvingCurrentColor_isSome env style hresolve hstroke fuel p true
    unfold RenderStyle.visitedDependentColor
    simp only [hu, hv]
    split_ifs <;> exact ⟨_, rfl⟩

/-- Witness of C28: inside a visited link, the background colour `(1, 2)` with the
visited-link background colour `(3, 7)` gives `(3, 2)`, the visited colour with the alpha 2
of the unvisited one. -/
theorem visitedDependentColor_alpha_witness :
    RenderStyle.visitedDependentColor (RenderStyle.Environment.sample false)
        (RenderStyle.sample (.absolute (1, 2)) (.absolute (3, 7)) (.absolute (3, 9)) (4, 9) (5, 9) () () false
          .InsideVisited false) 4 .CSSPropertyBackgroundColor [] = some (3, 2) ∧
    ∃ unvisitedColor,
      RenderStyle.colorResolvingCurrentColor (RenderStyle.Environment.sample false)
        (RenderStyle.sample (.absolute (1, 2)) (.absolute (3, 7)) (.absolute (3, 9)) (4, 9) (5, 9) () () false
          .InsideVisited false) 4 .CSSPropertyBackgroundColor false = some unvisitedColor ∧
      (RenderStyle.Environment.sample false).alphaAsFloat (3, 2)
        = (RenderStyle.Environment.sample false).alphaAsFloat unvisitedColor :=
  ⟨by decide,
   (visitedDependentColor_alpha (RenderStyle.Environment.sample false)
      (RenderStyle.sample (.absolute (1, 2)) (.absolute (3, 7)) (.absolute (3, 9)) (4, 9) (5, 9) () () false
        .InsideVisited false)
      (fun _ _ => rfl) .CSSPropertyBackgroundColor []).1 4 (3, 2) (by decide)⟩

/-- C29: with `unvisitedColor` the colour `colorResolvingCurrentColor(p, false)` returns,
`visitedDependentColor(p, paintBehavior)` returns `unvisitedColor` whenever the style is not
inside a visited link, or `paintBehavior` contains `DontShowVisitedLinks`, or the style is in
a subtree with a blend mode; in the remaining case, with `visitedColor` the colour
`colorResolvingCurrentColor(p, true)` returns, it returns `unvisitedColor` when `p` is
`background-color` and `visitedColor` is transparent black, and otherwise `visitedColor` with
the alpha of `unvisitedColor`. -/
theorem visitedDependentColor_cases {D W F : Type}
    (env : RenderStyle.Environment A M P D W F) (style : RenderStyle A M P D W) (fuel : Nat)
    (p : CSSPropertyID) (paintBehavior : List PaintBehavior) (unvisitedColor : A)
    (hunvisited :
      RenderStyle.colorResolvingCurrentColor env style fuel p false = some unvisitedColor) :
    ((style.insideLink ≠ .InsideVisited ∨ paintBehavior.contains .DontShowVisitedLinks = true ∨
        style.isInSubtreeWithBlendMode = true) →
      RenderStyle.visitedDependentColor env style fuel p paintBehavior
        = some unvisitedColor) ∧
    (∀ visitedColor,
      RenderStyle.colorResolvingCurrentColor env style fuel p true = some visitedColor →
      style.insideLink = .InsideVisited →
      paintBehavior.contains .DontShowVisitedLinks = false →
      style.isInSubtreeWithBlendMode = false →
      ((p = .CSSPropertyBackgroundColor ∧ env.colorEq visitedColor env.transparentBlack = true →
          RenderStyle.visitedDependentColor env style fuel p paintBehavior
            = some unvisitedColor) ∧
        (¬ (p = .CSSPropertyBackgroundColor
            ∧ env.colorEq visitedColor env.transparentBlack = true) →
          RenderStyle.visitedDependentColor env style fuel p paintBehavior
            = some (env.colorWithAlpha visitedColor (env.alphaAsFloat unvisitedColor))))) := by
  refine ⟨fun h => ?_, fun visitedColor hvisited h1 h2 h3 => ⟨fun h4 => ?_, fun h4 => ?_⟩⟩
  · unfold RenderStyle.visitedDependentColor
    simp only [hunvisited]
    split_ifs with a b c
    · rfl
    · rfl
    · rfl
    · exfalso
      rcases h with h | h | h
      · exact h (not_not.mp a)
      · exact b h
      · exact c h
  · unfold RenderStyle.visitedDependentColor
    simp only [hunvisited, hvisited]
    rw [if_neg (not_not.mpr h1), if_neg (by rw [h2]; exact Bool.false_ne_true),
      if_neg (by rw [h3]; exact Bool.false_ne_true), if_pos h4]
  · unfold RenderStyle.visitedDependentColor
    simp only [hunvisited, hvisited]
    rw [if_neg (not_not.mpr h1), if_neg (by rw [h2]; exact Bool.false_ne_true),
      if_neg (by rw [h3]; exact Bool.false_ne_true), if_neg h4]

/-- Witness of C29: the background colour, with visited-link colour `(3, 7)`, of a style
inside a visited link, of the same style painted with `DontShowVisitedLinks`, and with the
visited-link colour transparent black. -/
theorem visitedDependentColor_cases_witness :
    RenderStyle.visitedDependentColor (RenderStyle.Environment.sample false)
        (RenderStyle.sample (.absolute (1, 2)) (.absolute (3, 7)) (.absolute (3, 9)) (4, 9)
          (5, 9) () () false .InsideVisited false) 4 .CSSPropertyBackgroundColor []
      = some ((RenderStyle.Environment.sample false).colorWithAlpha (3, 7)
          ((RenderStyle.Environment.sample false).alphaAsFloat (1, 2))) ∧
    RenderStyle.visitedDependentColor (RenderStyle.Environment.sample false)
        (RenderStyle.sample (.absolute (1, 2)) (.absolute (3, 7)) (.absolute (3, 9)) (4, 9)
          (5, 9) () () false .InsideVisited false) 4 .CSSPropertyBackgroundColor
        [.DontShowVisitedLinks] = some (1, 2) ∧
    RenderStyle.visitedDependentColor (RenderStyle.Environment.sample false)
        (RenderStyle.sample (.absolute (1, 2)) (.absolute (0, 0)) (.absolute (3, 9)) (4, 9)
          (5, 9) () () false .InsideVisited false) 4 .CSSPropertyBackgroundColor []
      = some (1, 2) :=
  ⟨((visitedDependentColor_cases (RenderStyle.Environment.sample false)
      (RenderStyle.sample (.absolute (1, 2)) (.absolute (3, 7)) (.absolute (3, 9)) (4, 9)
        (5, 9) () () false .InsideVisited false) 4 .CSSPropertyBackgroundColor [] (1, 2)
      (by decide)).2 (3, 7) (by decide) rfl (by decide) rfl).2 (by decide),
   (visitedDependentColor_cases (RenderStyle.Environment.sample false)
      (RenderStyle.sample (.absolute (1, 2)) (.absolute (3, 7)) (.absolute (3, 9)) (4, 9)
        (5, 9) () () false .InsideVisited false) 4 .CSSPropertyBackgroundColor
      [.DontShowVisitedLinks] (1, 2) (by decide)).1 (Or.inr (Or.inl (by decide))),
   ((visitedDependentColor_cases (RenderStyle.Environment.sample false)
      (RenderStyle.sample (.absolute (1, 2)) (.absolute (0, 0)) (.absolute (3, 9)) (4, 9)
        (5, 9) () () false .InsideVisited false) 4 .CSSPropertyBackgroundColor [] (1, 2)
      (by decide)).2 (0, 0) (by decide) rfl (by decide) rfl).1 ⟨rfl, by decide⟩⟩

/-- C30: for `text-decoration-color`, with `result` the unresolved colour of the property:
when `result` is `currentcolor`, `colorResolvingCurrentColor` returns the resolved used stroke
colour if the style has a positive stroke width and that colour is visible, and otherwise the
resolved `-webkit-text-fill-color`; when `result` is not `currentcolor`, it returns `result`
resolved against the effective current colour, which is also what it returns for every other
property. -/
theorem colorResolvingCurrentColor_textDecoration {D W F : Type}
    (env : RenderStyle.Environment A M P D W F) (style : RenderStyle A M P D W) (fuel : Nat)
    (visitedLink : Bool) :
    RenderStyle.unresolvedColorForProperty env style (fuel + 1) .CSSPropertyTextDecorationColor
        visitedLink
      = some (if visitedLink then style.visitedLinkTextDecorationColor
          else style.textDecorationColor) ∧
    (∀ result, RenderStyle.unresolvedColorForProperty env style fuel
        .CSSPropertyTextDecorationColor visitedLink = some result →
      (result.isCurrentColor = true →
        (∀ strokeColor, style.hasPositiveStrokeWidth = true →
          RenderStyle.colorResolvingCurrentColor env style fuel style.usedStrokeColorProperty
            visitedLink = some strokeColor →
          env.isVisible strokeColor = true →
          RenderStyle.colorResolvingCurrentColor env style (fuel + 1)
            .CSSPropertyTextDecorationColor visitedLink = some strokeColor) ∧
        ((style.hasPositiveStrokeWidth = false ∨
            ∃ strokeColor, RenderStyle.colorResolvingCurrentColor env style fuel
              style.usedStrokeColorProperty visitedLink = some strokeColor ∧
              env.isVisible strokeColor = false) →
          RenderStyle.colorResolvingCurrentColor env style (fuel + 1)
              .CSSPropertyTextDecorationColor visitedLink
            = RenderStyle.colorResolvingCurrentColor env style fuel
                .CSSPropertyWebkitTextFillColor visitedLink)) ∧
      (result.isCurrentColor = false →
        RenderStyle.colorResolvingCurrentColor env style (fuel + 1)
            .CSSPropertyTextDecorationColor visitedLink
          = some (RenderStyle.colorResolvingCurrentColorOf env style result visitedLink))) ∧
    (∀ p, p ≠ .CSSPropertyTextDecorationColor →
      RenderStyle.colorResolvingCurrentColor env style (fuel + 1) p visitedLink
        = (RenderStyle.unresolvedColorForProperty env style fuel p visitedLink).map
            (fun result =>
              RenderStyle.colorResolvingCurrentColorOf env style result visitedLink)) := by
  refine ⟨by simp [RenderStyle.unresolvedColorForProperty], fun result hresult =>
    ⟨fun hcur => ⟨fun strokeColor hwidth hstroke hvisible => ?_, fun h => ?_⟩, fun hcur => ?_⟩,
    fun p hp => colorResolvingCurrentColor_of_ne_textDecoration env style fuel p visitedLink hp⟩
  · rw [colorResolvingCurrentColor_succ, hresult]
    simp [hcur, hwidth, hstroke, hvisible]
  · rw [colorResolvingCurrentColor_succ, hresult]
    rcases h with h | ⟨strokeColor, hstroke, hvisible⟩
    · simp [hcur, h]
    · by_cases hwidth : style.hasPositiveStrokeWidth = true
      · simp [hcur, hwidth, hstroke, hvisible]
      · simp [hcur, hwidth]
  · rw [colorResolvingCurrentColor_succ, hresult]
    simp [hcur]

/-- Witness of C30: a `currentcolor` text decoration in a style with a positive stroke width
and the visible text stroke colour `(1, 2)`, and in a style without stroke width, where the
text fill colour `(1, 2)` is returned as well. -/
theorem colorResolvingCurrentColor_textDecoration_witness :
    RenderStyle.colorResolvingCurrentColor (RenderStyle.Environment.sample false)
        (RenderStyle.sample (.absolute (1, 2)) (.absolute (3, 7)) StyleColor.currentColor
          (4, 9) (5, 9) () () true .NotInside false) (2 + 1) .CSSPropertyTextDecorationColor
        false = some (1, 2) ∧
    RenderStyle.colorResolvingCurrentColor (RenderStyle.Environment.sample false)
        (RenderStyle.sample (.absolute (1, 2)) (.absolute (3, 7)) StyleColor.currentColor
          (4, 9) (5, 9) () () false .NotInside false) (2 + 1) .CSSPropertyTextDecorationColor
        false
      = RenderStyle.colorResolvingCurrentColor (RenderStyle.Environment.sample false)
        (RenderStyle.sample (.absolute (1, 2)) (.absolute (3, 7)) StyleColor.currentColor
          (4, 9) (5, 9) () () false .NotInside false) 2 .CSSPropertyWebkitTextFillColor
        false :=
  ⟨(((colorResolvingCurrentColor_textDecoration (RenderStyle.Environment.sample false)
      (RenderStyle.sample (.absolute (1, 2)) (.absolute (3, 7)) StyleColor.currentColor
        (4, 9) (5, 9) () () true .NotInside false) 2 false).2.1 StyleColor.currentColor
      rfl).1 rfl).1 (1, 2) rfl (by decide) (by decide),
   (((colorResolvingCurrentColor_textDecoration (RenderStyle.Environment.sample false)
      (RenderStyle.sample (.absolute (1, 2)) (.absolute (3, 7)) StyleColor.currentColor
        (4, 9) (5, 9) () () false .NotInside false) 2 false).2.1 StyleColor.currentColor
      rfl).1 rfl).2 (Or.inl rfl)⟩

/-! ## The queue of nodes to delete: theorems -/

/-- `add` keeps the count within the maximum, whether or not the sum wraps. -/
theorem asyncNodeDeletionQueue_add_le {N : Type} (q : AsyncNodeDeletionQueue N)
    (children : List N) (numberOfNodes : Nat)
    (h : q.m_numberOfNodes ≤ MAX_SIZE_ASYNC_NODE_DELETION_QUEUE) :
    (q.add children numberOfNodes).1.m_numberOfNodes ≤ MAX_SIZE_ASYNC_NODE_DELETION_QUEUE := by
  unfold AsyncNodeDeletionQueue.add
  split_ifs with hgt
  · exact h
  · exact Nat.le_of_not_lt hgt

/-- Every sequence of calls keeps the count within the maximum. -/
theorem asyncNodeDeletionQueue_run_le {N : Type} :
    ∀ (calls : List (AsyncNodeDeletionQueue.Call N)) (q : AsyncNodeDeletionQueue N),
      q.m_numberOfNodes ≤ MAX_SIZE_ASYNC_NODE_DELETION_QUEUE →
      (q.run calls).m_numberOfNodes ≤ MAX_SIZE_ASYNC_NODE_DELETION_QUEUE
  | [], _, h => h
  | .add children numberOfNodes :: calls, q, h =>
      asyncNodeDeletionQueue_run_le calls _
        (asyncNodeDeletionQueue_add_le q children numberOfNodes h)
  | .clear :: calls, _, _ =>
      asyncNodeDeletionQueue_run_le calls _ (Nat.zero_le _)

/-- C31: from the empty queue, after any sequence of `add` and `clear` calls the count
`m_numberOfNodes` does not exceed 500000, also when the sum of `unsigned` wraps modulo
`2 ^ 32`, as it does in the second call of the example, which leaves the count at zero. -/
theorem asyncNodeDeletionQueue_size_bound {N : Type}
    (calls : List (AsyncNodeDeletionQueue.Call N)) :
    ((AsyncNodeDeletionQueue.empty : AsyncNodeDeletionQueue N).run calls).m_numberOfNodes
      ≤ 500000 ∧
    ((AsyncNodeDeletionQueue.empty : AsyncNodeDeletionQueue Nat).run
      [.add [10] 1, .add [20, 30] 4294967295]).m_numberOfNodes = 0 :=
  ⟨asyncNodeDeletionQueue_run_le calls _ (Nat.zero_le _), by decide⟩

/-- C34: `isColorKeyword(id, allowed)` holds exactly when `allowed` contains `Absolute` and
`id` is an absolute colour keyword, or `allowed` contains `Current` and `id` is the
`currentcolor` keyword, or `allowed` contains `System` and `id` is a system colour keyword.
So it is false for every `id` when `allowed` is empty, it stays true when `allowed` grows,
and every deprecated system colour keyword is accepted when `System` is allowed. -/
theorem isColorKeyword_iff (k : CSSValueKeywords) (id : Nat) (allowed : List CSSColorType) :
    (StyleColor.isColorKeyword k id allowed = true ↔
      (CSSColorType.Absolute ∈ allowed ∧ StyleColor.isAbsoluteColorKeyword k id = true) ∨
      (CSSColorType.Current ∈ allowed ∧ id = k.CSSValueCurrentcolor) ∨
      (CSSColorType.System ∈ allowed ∧ StyleColor.isSystemColorKeyword k id = true)) ∧
    StyleColor.isColorKeyword k id [] = false ∧
    (∀ larger : List CSSColorType, (∀ t, t ∈ allowed → t ∈ larger) →
      StyleColor.isColorKeyword k id allowed = true →
      StyleColor.isColorKeyword k id larger = true) ∧
    (CSSColorType.System ∈ allowed → StyleColor.isDeprecatedSystemColorKeyword k id = true →
      StyleColor.isColorKeyword k id allowed = true) := by
  have key : ∀ l : List CSSColorType, StyleColor.isColorKeyword k id l = true ↔
      (CSSColorType.Absolute ∈ l ∧ StyleColor.isAbsoluteColorKeyword k id = true) ∨
      (CSSColorType.Current ∈ l ∧ id = k.CSSValueCurrentcolor) ∨
      (CSSColorType.System ∈ l ∧ StyleColor.isSystemColorKeyword k id = true) := by
    intro l
    simp [StyleColor.isColorKeyword, StyleColor.isCurrentColorKeyword, or_assoc]
  refine ⟨key allowed, ?_, fun larger hsub h => ?_, fun hsys hdep => ?_⟩
  · simp [StyleColor.isColorKeyword]
  · rw [key] at h ⊢
    rcases h with ⟨h1, h2⟩ | ⟨h1, h2⟩ | ⟨h1, h2⟩
    · exact Or.inl ⟨hsub _ h1, h2⟩
    · exact Or.inr (Or.inl ⟨hsub _ h1, h2⟩)
    · exact Or.inr (Or.inr ⟨hsub _ h1, h2⟩)
  · rw [key]
    exact Or.inr (Or.inr ⟨hsys, by simp [StyleColor.isSystemColorKeyword, hdep]⟩)

/-- Witness of C34: with the keywords numbered so that the deprecated system colours are 60
to 80, the keyword 70 is accepted when `System` alone is allowed, and still when all three
types are. -/
theorem isColorKeyword_iff_witness :
    StyleColor.isColorKeyword ⟨1, 18, 20, 40, 41, 42, 50, 55, 56, 60, 80, 81, 90⟩ 70 [.System]
      = true ∧
    StyleColor.isColorKeyword ⟨1, 18, 20, 40, 41, 42, 50, 55, 56, 60, 80, 81, 90⟩ 70
      [.Absolute, .Current, .System] = true :=
  ⟨(isColorKeyword_iff ⟨1, 18, 20, 40, 41, 42, 50, 55, 56, 60, 80, 81, 90⟩ 70 [.System]).2.2.2
      (by decide) (by decide),
   (isColorKeyword_iff ⟨1, 18, 20, 40, 41, 42, 50, 55, 56, 60, 80, 81, 90⟩ 70 [.System]).2.2.1
      [.Absolute, .Current, .System] (by decide) (by decide)⟩

/-- C35: the empty value of `Markable` is `Color::invalidColor()`; when
`WebCore::Color::operator==` finds the invalid colour equal to itself, `isEmptyValue` is true
of an object holding the empty value; and `isEmptyValue` is false of every `CurrentColor`
value, a value made by the default constructor among them, and of every `Composite` value. -/
theorem markable_empty_value (colorEq : Color A → Color A → Bool) (kindEq : K → K → Bool)
    (heap : Style.Heap K) (objects : Nat → Style.Color A) (color temporary : Nat)
    (htemporary : color ≠ temporary) :
    (Style.Color.MarkableTraits.emptyValue : Style.Color A) = Style.Color.invalidColor ∧
    (colorEq .invalid .invalid = true →
      objects color = Style.Color.MarkableTraits.emptyValue →
      Style.Color.MarkableTraits.isEmptyValue colorEq kindEq heap objects color temporary
        = true) ∧
    ((objects color).isCurrentColor = true →
      Style.Color.MarkableTraits.isEmptyValue colorEq kindEq heap objects color temporary
        = false) ∧
    (objects color = Style.Color.default →
      Style.Color.MarkableTraits.isEmptyValue colorEq kindEq heap objects color temporary
        = false) ∧
    ((objects color).isExtendedStyleColor = true →
      Style.Color.MarkableTraits.isEmptyValue colorEq kindEq heap objects color temporary
        = false) := by
  have hunfold : Style.Color.MarkableTraits.isEmptyValue colorEq kindEq heap objects color
      temporary
      = match (objects color).m_color with
        | .currentColor => false
        | .extendedStyleColor _ => false
        | a => colorEq a .invalid := by
    unfold Style.Color.MarkableTraits.isEmptyValue
    rw [newColor_eq_of_ne colorEq kindEq heap _ color temporary htemporary]
    simp only [Function.update_same, Function.update_noteq htemporary]
    rcases objects color with ⟨_ | _ | _ | p⟩ <;> rfl
  have hcurrent : (objects color).isCurrentColor = true →
      Style.Color.MarkableTraits.isEmptyValue colorEq kindEq heap objects color temporary
        = false := by
    intro h
    rw [hunfold]
    revert h
    rcases objects color with ⟨_ | _ | _ | p⟩ <;>
      simp [Style.Color.isCurrentColor, Color.isCurrentColor]
  refine ⟨rfl, fun hinvalid hempty => ?_, hcurrent, fun hdefault => ?_, fun hext => ?_⟩
  · rw [hunfold, hempty]
    exact hinvalid
  · exact hcurrent (by rw [hdefault]; rfl)
  · rw [hunfold]
    revert hext
    rcases objects color with ⟨_ | _ | _ | p⟩ <;>
      simp [Style.Color.isExtendedStyleColor, Color.isExtendedStyleColor]

/-- Witness of C35: the object 0 holds the empty value, the object 1 a value made by the
default constructor, the object 2 a reference to node 7; the temporary is at address 9. -/
theorem markable_empty_value_witness :
    Style.Color.MarkableTraits.isEmptyValue (fun (a b : Color Nat) => decide (a = b))
        (fun (a b : Nat) => decide (a = b)) (fun p => ⟨1, p⟩)
        (fun n => if n = 0 then Style.Color.MarkableTraits.emptyValue
          else if n = 1 then Style.Color.default else Style.Color.ofExtendedStyleColor 7)
        0 9 = true ∧
    Style.Color.MarkableTraits.isEmptyValue (fun (a b : Color Nat) => decide (a = b))
        (fun (a b : Nat) => decide (a = b)) (fun p => ⟨1, p⟩)
        (fun n => if n = 0 then Style.Color.MarkableTraits.emptyValue
          else if n = 1 then Style.Color.default else Style.Color.ofExtendedStyleColor 7)
        1 9 = false ∧
    Style.Color.MarkableTraits.isEmptyValue (fun (a b : Color Nat) => decide (a = b))
        (fun (a b : Nat) => decide (a = b)) (fun p => ⟨1, p⟩)
        (fun n => if n = 0 then Style.Color.MarkableTraits.emptyValue
          else if n = 1 then Style.Color.default else Style.Color.ofExtendedStyleColor 7)
        2 9 = false :=
  ⟨(markable_empty_value (fun (a b : Color Nat) => decide (a = b))
      (fun (a b : Nat) => decide (a = b)) (fun p => ⟨1, p⟩)
      (fun n => if n = 0 then Style.Color.MarkableTraits.emptyValue
        else if n = 1 then Style.Color.default else Style.Color.ofExtendedStyleColor 7)
      0 9 (by decide)).2.1 (by decide) rfl,
   (markable_empty_value (fun (a b : Color Nat) => decide (a = b))
      (fun (a b : Nat) => decide (a = b)) (fun p => ⟨1, p⟩)
      (fun n => if n = 0 then Style.Color.MarkableTraits.emptyValue
        else if n = 1 then Style.Color.default else Style.Color.ofExtendedStyleColor 7)
      1 9 (by decide)).2.2.2.1 rfl,
   (markable_empty_value (fun (a b : Color Nat) => decide (a = b))
      (fun (a b : Nat) => decide (a = b)) (fun p => ⟨1, p⟩)
      (fun n => if n = 0 then Style.Color.MarkableTraits.emptyValue
        else if n = 1 then Style.Color.default else Style.Color.ofExtendedStyleColor 7)
      2 9 (by decide)).2.2.2.2 rfl⟩

end WebCore
